import Mathlib

/-!
Verification of the BEEP feature-computation core (beep/features/core.py)
against its natural-language specification.

The Python source is shallowly embedded in Lean: pandas series become lists,
float values become rationals (with real-valued logarithms where the code
produces log-scaled statistics), NaN cells become Option, and Python
exceptions become an explicit error type.  Each definition is a direct
translation of the corresponding function in the source; comments cite the
source lines.
-/

/- Batteries marks rational arithmetic irreducible; the concrete evaluations
in the theorems below need these definitions to unfold. -/
attribute [local semireducible] Rat.mul Rat.add Rat.sub Rat.inv

/-- Python abs / numpy absolute on a rational value. -/
def absQ (x : ℚ) : ℚ := if x < 0 then -x else x

/-- Python min of two values (numpy minimum). -/
def minQ (a b : ℚ) : ℚ := if a ≤ b then a else b

/-- Python max of two values. -/
def maxQ (a b : ℚ) : ℚ := if b ≤ a then a else b

/-- Minimum of a series (pandas Series.min); the default is returned for an
empty series, where pandas would produce NaN (no claim touches that case). -/
def listMinD (l : List ℚ) (d : ℚ) : ℚ :=
  match l with
  | [] => d
  | x :: xs => xs.foldl minQ x

/-- Maximum of a series (pandas Series.max); default for the empty series. -/
def listMaxD (l : List ℚ) (d : ℚ) : ℚ :=
  match l with
  | [] => d
  | x :: xs => xs.foldl maxQ x

/-- Optional maximum of a series: none models the NaN that pandas returns for
an empty selection (used by the equivalent-full-cycles rule). -/
def listMax? (l : List ℚ) : Option ℚ :=
  match l with
  | [] => none
  | x :: xs => some (xs.foldl maxQ x)

/-- numpy.linspace a b num: num evenly spaced samples from a to b, endpoints
included (all uses in the source have num = 1000). -/
def linspace (a b : ℚ) (num : ℕ) : List ℚ :=
  (List.range num).map (fun (i : ℕ) => a + (b - a) * (i : ℚ) / ((num : ℚ) - 1))

/-- Combination of numpy.argmin and indexing: given (key, value) pairs,
return the value attached to the first minimal key, as in
x_linspace[np.argmin(crossing_array)] (core.py lines 885-886).  numpy argmin
raises on an empty array, modelled by none. -/
def selectMinBy (pairs : List (ℚ × ℚ)) : Option ℚ :=
  match pairs with
  | [] => none
  | p :: rest => some ((rest.foldl (fun acc q => if q.1 < acc.1 then q else acc) p).2)

/-- pandas Series.fillna(method='ffill') on a series with NaN as none:
every NaN cell takes the most recent non-NaN value before it (leading NaNs
stay NaN).  The first argument carries that most recent value. -/
def ffillGo (carry : Option ℚ) : List (Option ℚ) → List (Option ℚ)
  | [] => []
  | none :: rest => carry :: ffillGo carry rest
  | some x :: rest => some x :: ffillGo (some x) rest

/-- Forward fill of a series, pandas fillna(method='ffill'). -/
def ffill (l : List (Option ℚ)) : List (Option ℚ) := ffillGo none l

/-- Python float comparison o < c where o may be NaN (none): NaN comparisons
are False. -/
def optLtB (o : Option ℚ) (c : ℚ) : Bool :=
  match o with
  | some x => decide (x < c)
  | none => false

/-- Python float comparison o > c where o may be NaN (none). -/
def optGtB (o : Option ℚ) (c : ℚ) : Bool :=
  match o with
  | some x => decide (c < x)
  | none => false

/-- Python int() truncation toward zero of a float, applied in the source to
a cycle index (core.py line 1009). -/
def ratTrunc (q : ℚ) : ℤ := if 0 ≤ q then ⌊q⌋ else -⌊-q⌋

/-- Error raised by (or escaping from) the Python code.  featurization is
beep.features.base.BEEPFeaturizationError; the remaining constructors model
builtin Python exceptions that the code can hit. -/
inductive PyError where
  /-- BEEPFeaturizationError with its message. -/
  | featurization (msg : String)
  /-- UnboundLocalError: a local variable is read before any assignment. -/
  | unboundLocal (name : String)
  /-- IndexError, e.g. iloc on an empty or too-short series. -/
  | indexError
  /-- ValueError from numpy or scipy. -/
  | valueError (msg : String)
  /-- ZeroDivisionError from float division by zero. -/
  | zeroDivision
deriving DecidableEq, Repr

/-- Sequencing of a fallible computation over a list (the per-axis loops of
get_threshold_targets): the first error wins, as in Python. -/
def mapME (f : α → Except PyError β) : List α → Except PyError (List β)
  | [] => .ok []
  | a :: rest =>
    match f a with
    | .error e => .error e
    | .ok b =>
      match mapME f rest with
      | .error e => .error e
      | .ok bs => .ok (b :: bs)

/-- Vectorised evaluation returning none if any element fails (numpy raises
on the first bad element). -/
def mapMO (f : α → Option β) : List α → Option (List β)
  | [] => some []
  | a :: rest =>
    match f a with
    | none => none
    | some b =>
      match mapMO f rest with
      | none => none
      | some bs => some (b :: bs)

/-! ## CycleSummaryStats.get_summary_statistics (core.py lines 211-254)

The statistic values are real numbers (log10 of rational aggregates); the
aggregates themselves are computed exactly over the rationals, mirroring the
numpy/scipy formulas. -/

/-- numpy.mean: arithmetic mean (0/0 = 0 stands in for the NaN numpy gives
on an empty array; no claim touches that case). -/
def meanQ (l : List ℚ) : ℚ := l.sum / l.length

/-- Central moment of order k, mean of (x - mean)^k. -/
def centralMoment (l : List ℚ) (k : ℕ) : ℚ :=
  ((l.map (fun x => (x - meanQ l) ^ k)).sum) / l.length

/-- numpy.var: population variance (ddof = 0), the second central moment. -/
def varQ (l : List ℚ) : ℚ := centralMoment l 2

/-- scipy.stats.skew with default bias=True: the Fisher-Pearson coefficient
m3 / m2^(3/2); division by zero (constant data, where scipy gives NaN)
yields 0 in the real-number embedding. -/
noncomputable def skewR (l : List ℚ) : ℝ :=
  (centralMoment l 3 : ℝ) / Real.sqrt (centralMoment l 2 : ℝ) ^ 3

/-- scipy.stats.kurtosis with fisher=False, bias=False: the bias-corrected
Pearson kurtosis; when the correction is impossible (n at most 3, or zero
variance) scipy falls back to the biased ratio m4 / m2^2. -/
def kurtQ (l : List ℚ) : ℚ :=
  let n : ℚ := l.length
  let m2 := centralMoment l 2
  let m4 := centralMoment l 4
  if 3 < l.length ∧ m2 ≠ 0 then
    1 / ((n - 2) * (n - 3)) * ((n ^ 2 - 1) * m4 / m2 ^ 2 - 3 * (n - 1) ^ 2) + 3
  else m4 / m2 ^ 2

/-- numpy.log10. -/
noncomputable def np_log10 (x : ℝ) : ℝ := Real.logb 10 x

/-- The supported statistics, CycleSummaryStats.DEFAULT_HYPERPARAMETERS
["statistics"] (core.py lines 94-95), in the order the source appends them. -/
def supported_statistics : List String :=
  ["var", "min", "mean", "skew", "kurtosis", "abs", "square"]

/-- The value appended for one statistic name (core.py lines 238-252):
log10 of the absolute value of the aggregate, except that the abs and square
statistics take log10 of the plain (nonnegative) sum.  The catch-all is
unreachable behind the supported-statistics check. -/
noncomputable def statValue (array : List ℚ) (name : String) : ℝ :=
  if name = "var" then np_log10 |(varQ array : ℝ)|
  else if name = "min" then np_log10 |(listMinD array 0 : ℝ)|
  else if name = "mean" then np_log10 |(meanQ array : ℝ)|
  else if name = "skew" then np_log10 |skewR array|
  else if name = "kurtosis" then np_log10 |(kurtQ array : ℝ)|
  else if name = "abs" then np_log10 ((array.map absQ).sum : ℝ)
  else if name = "square" then np_log10 (((array.map (fun x => x ^ 2)).sum : ℚ) : ℝ)
  else 0

/-- CycleSummaryStats.get_summary_statistics (core.py lines 211-254): after
validating every requested name against the supported set (line 232, raising
ValueError otherwise), the values are appended by a fixed sequence of
membership tests in the source order var, min, mean, skew, kurtosis, abs,
square (lines 238-252), one value per supported name that occurs among the
requested names. -/
noncomputable def get_summary_statistics (stats_names : List String) (array : List ℚ) :
    Except String (List ℝ) :=
  if stats_names.any (fun s => !(supported_statistics.contains s)) then
    .error "Unsupported statistics"
  else
    .ok ((if stats_names.contains "var" then [statValue array "var"] else []) ++
         (if stats_names.contains "min" then [statValue array "min"] else []) ++
         (if stats_names.contains "mean" then [statValue array "mean"] else []) ++
         (if stats_names.contains "skew" then [statValue array "skew"] else []) ++
         (if stats_names.contains "kurtosis" then [statValue array "kurtosis"] else []) ++
         (if stats_names.contains "abs" then [statValue array "abs"] else []) ++
         (if stats_names.contains "square" then [statValue array "square"] else []))

/-! ## DiagnosticProperties.get_threshold_targets (core.py lines 806-914) -/

/-- One row of the diagnostic fractional-metric dataframe handed to
get_threshold_targets: cycle_index, fractional_metric and
initial_regular_throughput are the columns the function reads by name; col
holds any further column (e.g. normalized_regular_throughput) that an
interpolation axis may name. -/
structure DiagRow where
  cycle_index : ℚ
  fractional_metric : ℚ
  initial_regular_throughput : ℚ
  col : String → ℚ

/-- Column access df[name] for a row. -/
def DiagRow.colValue (r : DiagRow) (name : String) : ℚ :=
  if name = "cycle_index" then r.cycle_index
  else if name = "fractional_metric" then r.fractional_metric
  else if name = "initial_regular_throughput" then r.initial_regular_throughput
  else r.col name

/-- The DiagnosticProperties hyperparameters read by get_threshold_targets
(core.py lines 820-825). -/
structure ThresholdHP where
  cycle_type : String
  metric : String
  interpolation_axes : List String
  threshold : ℚ
  filter_kinks : Option ℚ
  extrapolate_threshold : Bool

/-- pandas Series.diff().diff() per row: the second discrete difference
y(i) - 2 y(i-1) + y(i-2) for i at least 2; the first two rows are NaN
(none). -/
def secondDiffsGo : List ℚ → List (Option ℚ)
  | a :: b :: c :: rest => some (c - 2 * b + a) :: secondDiffsGo (b :: c :: rest)
  | _ => []

/-- Second discrete difference of a series, aligned with the rows of the
series (NaN for the first two rows), as df['fractional_metric'].diff().diff()
in core.py line 828. -/
def secondDiffs (ys : List ℚ) : List (Option ℚ) :=
  match ys with
  | [] => []
  | [_] => [none]
  | _ :: _ :: _ => none :: none :: secondDiffsGo ys

/-- The kink filter of get_threshold_targets (core.py lines 827-831): when
filter_kinks is set (Python truthiness: None and 0.0 both disable it) and
some second difference of the fractional metric is below filter_kinks
(NaN rows compare False), the frame is truncated to the rows whose
cycle_index is strictly below the smallest cycle_index among the flagged
rows. -/
def kinkFilter (fk : Option ℚ) (df : List DiagRow) : List DiagRow :=
  match fk with
  | none => df
  | some k =>
    if k = 0 then df
    else
      let sd := secondDiffs (df.map (fun r => r.fractional_metric))
      let flagged := ((df.zip sd).filter (fun p => optLtB p.2 k)).map (fun p => p.1)
      if flagged.isEmpty then df
      else
        let last_good := listMinD (flagged.map (fun r => r.cycle_index)) 0
        df.filter (fun r => decide (r.cycle_index < last_good))

/-- Series.iloc[-1] with a junk default for the empty series (where pandas
raises IndexError; every use is behind a length guard). -/
def ilocLast (l : List ℚ) : ℚ := l.getD (l.length - 1) 0

/-- Series.iloc[-2] (second-to-last element), junk default as in ilocLast. -/
def ilocPenult (l : List ℚ) : ℚ := l.getD (l.length - 2) 0

/-- The extrapolated x endpoint of core.py lines 851-856: the x at which the
line through the last two observed points reaches threshold - 0.1. -/
def xThreshExtrap (threshold : ℚ) (xs ys : List ℚ) : ℚ :=
  (threshold - 1/10 - ilocPenult ys) * (ilocLast xs - ilocPenult xs) /
    (ilocLast ys - ilocPenult ys) + ilocPenult xs

/-- scipy.interpolate.interp1d(x, y, kind='linear', bounds_error, fill_value):
the points sorted by x (interp1d sorts, assume_sorted defaults to False) and
the bounds_error flag.  fill_value is "extrapolate" exactly when bounds_error
is False in the source, so the flag alone determines evaluation. -/
structure Interp1d where
  pts : List (ℚ × ℚ)
  bounds_error : Bool

/-- Construction of the interpolant from the x and y columns
(core.py lines 869-878). -/
def mkInterp1d (xs ys : List ℚ) (bounds_error : Bool) : Interp1d :=
  { pts := (xs.zip ys).insertionSort (fun p q => p.1 ≤ q.1), bounds_error }

/-- Piecewise-linear evaluation over points sorted by x; queries beyond the
ends use the nearest segment (linear extrapolation).  Fewer than two points
never reaches evaluation (scipy raises at construction). -/
def interpSorted : List (ℚ × ℚ) → ℚ → ℚ
  | p :: q :: rest, x =>
    if x ≤ q.1 ∨ rest = [] then p.2 + (q.2 - p.2) * (x - p.1) / (q.1 - p.1)
    else interpSorted (q :: rest) x
  | _, _ => 0

/-- Evaluation of the interpolant at one query: with bounds_error the query
must lie inside the observed x range (scipy raises ValueError outside,
modelled by none); otherwise linear extrapolation applies. -/
def Interp1d.eval (f : Interp1d) (x : ℚ) : Option ℚ :=
  if f.bounds_error ∧
      (x < ((f.pts.head?.map Prod.fst).getD 0) ∨ ((f.pts.getLastD (0, 0)).1) < x) then
    none
  else some (interpSorted f.pts x)

/-- The per-axis crossing search of get_threshold_targets: build the 1000
sample grid (core.py lines 857-866), evaluate the interpolant on it and take
the grid point whose interpolant value is nearest the threshold (lines
880-886).  notCrossed records that the minimum fractional metric is above
the threshold, selecting the extrapolation grid and disabling the bounds
check (lines 845-866). -/
def solveAxis (threshold : ℚ) (notCrossed : Bool) (df : List DiagRow) (axis : String) :
    Except PyError ℚ :=
  let xs := df.map (fun r => r.colValue axis)
  let ys := df.map (fun r => r.fractional_metric)
  let lin :=
    if notCrossed then linspace (listMinD xs 0) (xThreshExtrap threshold xs ys) 1000
    else linspace (listMinD xs 0) (listMaxD xs 0) 1000
  let f := mkInterp1d xs ys (!notCrossed)
  (mapMO f.eval lin).elim
    (.error (.valueError "A value in x_new is outside the interpolation range"))
    (fun vals =>
      (selectMinBy ((vals.map (fun v => absQ (v - threshold))).zip lin)).elim
        (.error (.valueError "argmin of an empty sequence"))
        (fun c => .ok c))

/-- The column name under which an axis crossing is reported,
cycle_type + metric + str(threshold) + '_' + axis (core.py lines 909-912). -/
def axisKey (cycle_type metric : String) (threshold : ℚ) (axis : String) : String :=
  cycle_type ++ metric ++ toString threshold ++ "_" ++ axis

/-- df['initial_regular_throughput'].values[0] of the (filtered) frame. -/
def initialThroughput (df : List DiagRow) : ℚ :=
  ((df.head?.map (fun r => r.initial_regular_throughput)).getD 0)

/-- The tail of get_threshold_targets after the kink filter and the
not-crossed error check (core.py lines 833-914): solve every interpolation
axis, apply the positivity check of lines 888-892 - which indexes
x_to_threshold[0] and x_to_threshold[1] only, so with fewer than two axes
Python raises IndexError (short-circuit: with exactly one axis whose value
is nonpositive, the BEEPFeaturizationError fires first) - then append the
derived real throughput when normalized_regular_throughput is an axis
(lines 894-902) and assemble the single-row result (lines 904-914). -/
def solveFiltered (cycle_type metric : String) (axes : List String) (threshold : ℚ)
    (df : List DiagRow) : Except PyError (List (String × ℚ)) :=
  let ymin := listMinD (df.map (fun r => r.fractional_metric)) 0
  let notCrossed := decide (threshold < ymin)
  match mapME (solveAxis threshold notCrossed df) axes with
  | .error e => .error e
  | .ok x_to_threshold =>
    match x_to_threshold with
    | [] => .error .indexError
    | [x0] =>
      if ¬ 0 < x0 then
        .error (.featurization
          "DiagnosticProperties data does not have a positive value to threshold")
      else .error .indexError
    | x0 :: x1 :: _ =>
      if ¬ 0 < x0 ∨ ¬ 0 < x1 then
        .error (.featurization
          "DiagnosticProperties data does not have a positive value to threshold")
      else
        let extended :=
          if axes.contains "normalized_regular_throughput" then
            (axes ++ ["real_regular_throughput"],
             x_to_threshold ++
               [x_to_threshold.getD (axes.indexOf "normalized_regular_throughput") 0 *
                  initialThroughput df])
          else (axes, x_to_threshold)
        .ok (("initial_regular_throughput", initialThroughput df) ::
          (extended.1.zip extended.2).map
            (fun p => (axisKey cycle_type metric threshold p.1, p.2)))

/-- DiagnosticProperties.get_threshold_targets (core.py lines 806-914).
After the kink filter, line 839 tests whether the metric never crossed the
threshold with extrapolation disabled; in the source the
BEEPFeaturizationError of lines 841-844 is constructed but never raised
(there is no raise keyword), so execution continues into the if/elif/else
chain without taking any branch, leaving fill_value, bounds_error and
x_linspaces unassigned, and the first later read (line 875) raises
UnboundLocalError.  The length guard models scipy interp1d (two data points
required) and iloc[-2] on shorter frames, both of which raise. -/
def get_threshold_targets (hp : ThresholdHP) (df0 : List DiagRow) :
    Except PyError (List (String × ℚ)) :=
  let df := kinkFilter hp.filter_kinks df0
  let ymin := listMinD (df.map (fun r => r.fractional_metric)) 0
  if hp.threshold < ymin ∧ hp.extrapolate_threshold = false then
    .error (.unboundLocal "bounds_error")
  else if df.length < 2 then
    .error (.valueError "x and y arrays must have at least 2 entries")
  else
    solveFiltered hp.cycle_type hp.metric hp.interpolation_axes hp.threshold df

/-! ## ExclusionCriteria.create_features (core.py lines 917-1073)

Collaborators that the core consumes but whose code is outside src/
(featurizer_helpers.get_fractional_quantity_remaining_nx,
beep.utils.parameters_lookup.get_protocol_parameters,
beep.structure.base.get_CV_segment_from_charge) are modelled from the spec,
as marked below. -/

/-- One row of DataPath.structured_data, with the columns this extractor
reads (spec section 3, StructuredTimeSeries). -/
structure DataRow where
  cycle_index : ℚ
  step_type : String
  test_time : ℚ
  voltage : ℚ
deriving DecidableEq, Repr

/-- One row of DataPath.structured_summary (spec section 3): the pandas row
index (the frame is indexed by cycle_index) plus the columns this extractor
reads; charge_throughput may be NaN (none). -/
structure SummaryRow where
  index : ℚ
  cycle_index : ℚ
  charge_throughput : Option ℚ
deriving DecidableEq, Repr

/-- One row of the fractional-metric series; fractional_metric may be NaN. -/
structure FracRow where
  cycle_index : ℚ
  fractional_metric : Option ℚ
deriving DecidableEq, Repr

/-- The slice of a DataPath that ExclusionCriteria.create_features reads.
diag_fractional is modelled from the spec: the output of
featurizer_helpers.get_fractional_quantity_remaining_nx (not in src/), the
ordered fractional-metric series of the ThresholdCrossingSolver for the
configured quantity and cycle type.  protocol_CC1, protocol_CC2 and
protocol_capacity_nominal are modelled from the spec: the
charge_constant_current_1, charge_constant_current_2 and capacity_nominal
constants that the external protocol-parameter lookup
(get_protocol_parameters, not in src/) resolves for the run. -/
structure ExDatapath where
  structured_summary : List SummaryRow
  structured_data : List DataRow
  diag_fractional : List FracRow
  nominal_capacity_param : Option ℚ
  protocol_CC1 : ℚ
  protocol_CC2 : ℚ
  protocol_capacity_nominal : ℚ

/-- The ExclusionCriteria hyperparameters (core.py lines 938-944). -/
structure ExclusionHP where
  EOL_threshold : ℚ
  throughput_n : ℚ
  throughput_cutoff : ℚ
  equivalent_full_cycles_cutoff : ℚ
  early_CV_cutoff : ℚ

/-- A cell of the produced feature table: a float, a bool, or NaN. -/
inductive PdVal where
  | q (x : ℚ)
  | b (x : Bool)
  | nan
deriving DecidableEq, Repr

/-- Python truthiness of a cell, as used by if and by all(...): nonzero
floats are truthy, and float NaN is truthy. -/
def PdVal.truthy : PdVal → Bool
  | .q x => decide (x ≠ 0)
  | .b x => x
  | .nan => true

/-- A float cell from an optional value (NaN for none). -/
def optVal : Option ℚ → PdVal
  | some x => .q x
  | none => .nan

/-- The feature table under construction: named columns of cells.  The row
index is fixed by the first column assigned (pandas: assigning a series to
an empty frame adopts its index). -/
abbrev PdFrame := List (String × List PdVal)

/-- Number of rows of the frame: the length of the first assigned column. -/
def frameRowLen (f : PdFrame) : ℕ :=
  match f with
  | [] => 0
  | c :: _ => c.2.length

/-- pandas index alignment when a series (freshly reset to a range index) is
assigned as a new column of a frame with m rows: values beyond row m are
dropped, missing rows become NaN.  This is what keeps the frame single-row
when the EOL guard selects a two-element series (core.py lines 990-998). -/
def alignSeries (m : ℕ) (s : List PdVal) : List PdVal :=
  s.take m ++ List.replicate (m - s.length) PdVal.nan

/-- Column lookup by name. -/
def frameGet (f : PdFrame) (name : String) : Option (List PdVal) :=
  (f.find? (fun c => c.1 = name)).map (fun c => c.2)

/-- The to_include column (core.py lines 1071-1072): for every row, the
Python all(...) of the row values of every column whose name starts with
the three characters i s underscore. -/
def toIncludeColumn (f : PdFrame) : List PdVal :=
  let iscols := f.filter (fun c => c.1.take 3 = "is_")
  (List.range (frameRowLen f)).map (fun i =>
    PdVal.b (iscols.all (fun c => ((c.2.get? i).getD PdVal.nan).truthy)))

/-- Modelled from the spec: get_CV_segment_from_charge
(beep.structure.base, not in src/) locates the constant-voltage portion of a
charge step, the part following the initial constant-current phase in which
the voltage holds at the charge cutoff voltage; modelled as the rows of the
charge data at its maximal voltage. -/
def get_CV_segment_from_charge (charge : List DataRow) : List DataRow :=
  charge.filter (fun r => r.voltage = listMaxD (charge.map (fun r => r.voltage)) 0)

/-- The per-cycle body of the early-CV loop (core.py lines 1050-1066):
select the cycle rows, their charge rows, the CV segment; CV onset time is
the first CV row (iloc[0] raises IndexError on an empty segment); the onset
fraction divides by the cycle duration (float division by zero raises).
The result is whether the cycle is NOT an early-CV cycle. -/
def cycleNotEarlyCV (dp : ExDatapath) (early_CV_cutoff : ℚ) (cyc : ℚ) :
    Except PyError Bool :=
  let cycle_data := dp.structured_data.filter (fun r => r.cycle_index = cyc)
  let charge_data := cycle_data.filter (fun r => r.step_type = "charge")
  let CV_segment := get_CV_segment_from_charge charge_data
  match CV_segment.head? with
  | none => .error .indexError
  | some r0 =>
    let cycle_start := listMinD (cycle_data.map (fun r => r.test_time)) 0
    let cycle_end := listMaxD (cycle_data.map (fun r => r.test_time)) 0
    if cycle_end - cycle_start = 0 then .error .zeroDivision
    else .ok (!(decide ((r0.test_time - cycle_start) / (cycle_end - cycle_start) <
      early_CV_cutoff)))

/-- The early-CV loop over the regular cycles up to the EOL cutoff cycle
(core.py lines 1050-1066): the first cycle whose CV onset fraction is below
the cutoff makes the rule fail immediately (break). -/
def earlyCVLoop (dp : ExDatapath) (cut : ℚ) : List ℚ → Except PyError Bool
  | [] => .ok true
  | c :: rest =>
    match cycleNotEarlyCV dp cut c with
    | .error e => .error e
    | .ok true => earlyCVLoop dp cut rest
    | .ok false => .ok false

/-- The cycle indices of the regular cycles at or before the cutoff cycle
(core.py lines 1048-1050). -/
def preEOLCycles (dp : ExDatapath) (cutoff : ℤ) : List ℚ :=
  ((dp.structured_summary.filter (fun r => r.cycle_index ≤ (cutoff : ℚ))).map
    (fun r => r.cycle_index))

/-- The early-CV rule of ExclusionCriteria (core.py lines 1035-1068): when
CC1 is at most CC2 the flag is the constant True; only when CC1 exceeds CC2
does the per-cycle loop run. -/
def is_not_early_CV_flag (dp : ExDatapath) (early_CV_cutoff : ℚ) (cutoff : ℤ) :
    Except PyError Bool :=
  if dp.protocol_CC1 ≤ dp.protocol_CC2 then .ok true
  else earlyCVLoop dp early_CV_cutoff (preEOLCycles dp cutoff)

/-- Follows the words of the spec sentence behind claim C6 (for comparison
with the source translation is_not_early_CV_flag): the rule is evaluated per
cycle only when the protocol's first constant-current phase is at LOWER
current than the second (CC1 < CC2), and is trivially true otherwise. -/
def is_not_early_CV_claim (dp : ExDatapath) (early_CV_cutoff : ℚ) (cutoff : ℤ) :
    Except PyError Bool :=
  if dp.protocol_CC1 < dp.protocol_CC2 then
    earlyCVLoop dp early_CV_cutoff (preEOLCycles dp cutoff)
  else .ok true

/-- Forward fill of the summary frame (structured_summary.fillna(ffill) in
core.py line 1023), on the charge_throughput column this extractor reads. -/
def summaryFfillGo (carry : Option ℚ) : List SummaryRow → List SummaryRow
  | [] => []
  | r :: rest =>
    match r.charge_throughput with
    | none => { r with charge_throughput := carry } :: summaryFfillGo carry rest
    | some x => r :: summaryFfillGo (some x) rest

/-- structured_summary.fillna(method='ffill'). -/
def summaryFfill (l : List SummaryRow) : List SummaryRow := summaryFfillGo none l

/-- ExclusionCriteria.create_features (core.py lines 965-1073), translated
rule by rule; the columns are assembled with pandas index alignment
(alignSeries) against the row count m fixed by the first column. -/
def exclusion_create_features (hp : ExclusionHP) (dp : ExDatapath) :
    Except PyError PdFrame :=
  -- Throughput-floor rule (lines 969-979): the summary rows whose frame
  -- index equals n, NaN filled with 0, compared against the cutoff.
  let tput : List ℚ :=
    (dp.structured_summary.filter (fun r => r.index = hp.throughput_n)).map
      (fun r => r.charge_throughput.getD 0)
  let m := tput.length
  let col1 := tput.map PdVal.q
  let col2 := alignSeries m ((tput.map (fun x => decide (hp.throughput_cutoff < x))).map PdVal.b)
  -- EOL-reached rule (lines 981-998): last forward-filled fractional value,
  -- or the last two when the last exceeds 1 (iloc[0] on the empty series
  -- raises IndexError).
  let ff := ffill (dp.diag_fractional.map (fun r => r.fractional_metric))
  match ff.getLast? with
  | none => .error .indexError
  | some last =>
    let eot : List (Option ℚ) :=
      if optGtB last 1 then ff.drop (ff.length - 2) else ff.drop (ff.length - 1)
    let col3 := alignSeries m (eot.map optVal)
    let col4 := alignSeries m ((eot.map (fun o => optLtB o hp.EOL_threshold)).map
      (fun x => PdVal.b x))
    -- EFC rule (lines 1000-1033): needs features["is_below_..."].iloc[0],
    -- raising IndexError on a zero-row frame.
    match col4.head? with
    | none => .error .indexError
    | some flagVal =>
      let cutoffQ? : Except PyError ℚ :=
        if flagVal.truthy then
          match (dp.diag_fractional.filter
              (fun r => optLtB r.fractional_metric hp.EOL_threshold)).head? with
          | none => .error .indexError
          | some r => .ok r.cycle_index
        else
          match dp.diag_fractional.getLast? with
          | none => .error .indexError
          | some r => .ok r.cycle_index
      match cutoffQ? with
      | .error e => .error e
      | .ok cutoffQ =>
        let cutoff : ℤ := ratTrunc cutoffQ
        let nominal : ℚ :=
          match dp.nominal_capacity_param with
          | some c => c
          | none => dp.protocol_capacity_nominal
        let lastReg : Option ℚ := listMax?
          (((dp.structured_summary.filter (fun r => r.cycle_index ≤ (cutoff : ℚ))).map
            (fun r => r.cycle_index)))
        let efc : List (Option ℚ) :=
          ((summaryFfill dp.structured_summary).filter (fun r =>
            match lastReg with
            | some m0 => decide (r.cycle_index = m0)
            | none => false)).map (fun r => r.charge_throughput.map (fun x => x / nominal))
        let col5 := alignSeries m (efc.map optVal)
        let col6 := alignSeries m ((efc.map
          (fun o => optGtB o hp.equivalent_full_cycles_cutoff)).map (fun x => PdVal.b x))
        -- Early-CV rule (lines 1035-1068), assigned as a scalar (broadcast).
        match is_not_early_CV_flag dp hp.early_CV_cutoff cutoff with
        | .error e => .error e
        | .ok cvFlag =>
          let col7 := List.replicate m (PdVal.b cvFlag)
          let partialFrame : PdFrame :=
            [("first_n_cycles_throughput", col1),
             ("is_above_first_n_cycles_throughput", col2),
             ("fractional_capacity_at_EOT", col3),
             ("is_below_fractional_capacity_at_EOT", col4),
             ("equivalent_full_cycles_at_EOL", col5),
             ("is_above_equivalent_full_cycles_at_EOL", col6),
             ("is_not_early_CV", col7)]
          .ok (partialFrame ++ [("to_include", toIncludeColumn partialFrame)])

/-- Row-0 truthiness of a named column of the produced table (used to state
the to_include claim). -/
def valTruthyAt (f : PdFrame) (name : String) (i : ℕ) : Bool :=
  (((frameGet f name).bind (fun col => col.get? i)).getD PdVal.nan).truthy

/-! ## Basic lemmas about the embedding's list and arithmetic helpers -/

theorem absQ_eq_abs (x : ℚ) : absQ x = |x| := by
  unfold absQ
  rcases lt_or_le x 0 with h | h
  · rw [if_pos h, abs_of_neg h]
  · rw [if_neg (not_lt.mpr h), abs_of_nonneg h]

theorem minQ_le_left (a b : ℚ) : minQ a b ≤ a := by
  unfold minQ; split
  · exact le_rfl
  · exact le_of_not_le (by assumption)

theorem minQ_le_right (a b : ℚ) : minQ a b ≤ b := by
  unfold minQ; split
  · assumption
  · exact le_rfl

theorem minQ_eq_or (a b : ℚ) : minQ a b = a ∨ minQ a b = b := by
  unfold minQ; split
  · exact Or.inl rfl
  · exact Or.inr rfl

theorem foldl_minQ_le (xs : List ℚ) : ∀ (acc y : ℚ), y ∈ acc :: xs →
    xs.foldl minQ acc ≤ y := by
  induction xs with
  | nil =>
    intro acc y hy
    simp only [List.mem_singleton] at hy
    simp [hy]
  | cons x xs ih =>
    intro acc y hy
    have step : (x :: xs).foldl minQ acc = xs.foldl minQ (minQ acc x) := rfl
    rw [step]
    rcases List.mem_cons.mp hy with h | h
    · exact le_trans (ih (minQ acc x) (minQ acc x) (List.mem_cons_self _ _))
        (h ▸ minQ_le_left acc x)
    · rcases List.mem_cons.mp h with h2 | h2
      · exact le_trans (ih (minQ acc x) (minQ acc x) (List.mem_cons_self _ _))
          (h2 ▸ minQ_le_right acc x)
      · exact ih (minQ acc x) y (List.mem_cons_of_mem _ h2)

theorem foldl_minQ_mem (xs : List ℚ) : ∀ (acc : ℚ), xs.foldl minQ acc ∈ acc :: xs := by
  induction xs with
  | nil => intro acc; simp
  | cons x xs ih =>
    intro acc
    have step : (x :: xs).foldl minQ acc = xs.foldl minQ (minQ acc x) := rfl
    rw [step]
    rcases List.mem_cons.mp (ih (minQ acc x)) with h | h
    · rw [h]; rcases minQ_eq_or acc x with he | he <;> simp [he]
    · simp [List.mem_cons_of_mem, h]

theorem listMinD_le (l : List ℚ) (d y : ℚ) (hy : y ∈ l) : listMinD l d ≤ y := by
  cases l with
  | nil => cases hy
  | cons x xs => exact foldl_minQ_le xs x y hy

theorem listMinD_mem (l : List ℚ) (d : ℚ) (h : l ≠ []) : listMinD l d ∈ l := by
  cases l with
  | nil => exact absurd rfl h
  | cons x xs => exact foldl_minQ_mem xs x

theorem le_maxQ_left (a b : ℚ) : a ≤ maxQ a b := by
  unfold maxQ; split
  · exact le_rfl
  · exact le_of_not_le (by assumption)

theorem le_maxQ_right (a b : ℚ) : b ≤ maxQ a b := by
  unfold maxQ; split
  · assumption
  · exact le_rfl

theorem maxQ_eq_or (a b : ℚ) : maxQ a b = a ∨ maxQ a b = b := by
  unfold maxQ; split
  · exact Or.inl rfl
  · exact Or.inr rfl

theorem foldl_maxQ_ge (xs : List ℚ) : ∀ (acc y : ℚ), y ∈ acc :: xs →
    y ≤ xs.foldl maxQ acc := by
  induction xs with
  | nil =>
    intro acc y hy
    simp only [List.mem_singleton] at hy
    simp [hy]
  | cons x xs ih =>
    intro acc y hy
    have step : (x :: xs).foldl maxQ acc = xs.foldl maxQ (maxQ acc x) := rfl
    rw [step]
    rcases List.mem_cons.mp hy with h | h
    · exact le_trans (h ▸ le_maxQ_left acc x)
        (ih (maxQ acc x) (maxQ acc x) (List.mem_cons_self _ _))
    · rcases List.mem_cons.mp h with h2 | h2
      · exact le_trans (h2 ▸ le_maxQ_right acc x)
          (ih (maxQ acc x) (maxQ acc x) (List.mem_cons_self _ _))
      · exact ih (maxQ acc x) y (List.mem_cons_of_mem _ h2)

theorem foldl_maxQ_mem (xs : List ℚ) : ∀ (acc : ℚ), xs.foldl maxQ acc ∈ acc :: xs := by
  induction xs with
  | nil => intro acc; simp
  | cons x xs ih =>
    intro acc
    have step : (x :: xs).foldl maxQ acc = xs.foldl maxQ (maxQ acc x) := rfl
    rw [step]
    rcases List.mem_cons.mp (ih (maxQ acc x)) with h | h
    · rw [h]; rcases maxQ_eq_or acc x with he | he <;> simp [he]
    · simp [List.mem_cons_of_mem, h]

theorem listMaxD_ge (l : List ℚ) (d y : ℚ) (hy : y ∈ l) : y ≤ listMaxD l d := by
  cases l with
  | nil => cases hy
  | cons x xs => exact foldl_maxQ_ge xs x y hy

theorem listMaxD_mem (l : List ℚ) (d : ℚ) (h : l ≠ []) : listMaxD l d ∈ l := by
  cases l with
  | nil => exact absurd rfl h
  | cons x xs => exact foldl_maxQ_mem xs x

theorem ilocLast_getElem (l : List ℚ) (h : 1 ≤ l.length) :
    ilocLast l = l.get ⟨l.length - 1, by omega⟩ := by
  unfold ilocLast
  rw [List.getD_eq_getElem?_getD, List.getElem?_eq_getElem (by omega)]
  rfl

theorem ilocPenult_getElem (l : List ℚ) (h : 2 ≤ l.length) :
    ilocPenult l = l.get ⟨l.length - 2, by omega⟩ := by
  unfold ilocPenult
  rw [List.getD_eq_getElem?_getD, List.getElem?_eq_getElem (by omega)]
  rfl

theorem ilocLast_mem (l : List ℚ) (h : 1 ≤ l.length) : ilocLast l ∈ l := by
  rw [ilocLast_getElem l h]
  exact List.get_mem _ _ _

theorem pairwise_penult_last {R : ℚ → ℚ → Prop} (l : List ℚ) (h2 : 2 ≤ l.length)
    (hp : l.Pairwise R) : R (ilocPenult l) (ilocLast l) := by
  rw [ilocPenult_getElem l h2, ilocLast_getElem l (by omega)]
  have := List.pairwise_iff_get.mp hp ⟨l.length - 2, by omega⟩ ⟨l.length - 1, by omega⟩
    (by simp only [Fin.mk_lt_mk]; omega)
  simpa using this

theorem head?_drop_eq (l : List (Option ℚ)) (n : ℕ) (h : n < l.length) :
    (l.drop n).head? = some (l.get ⟨n, h⟩) := by
  induction l generalizing n with
  | nil => simp at h
  | cons x xs ih =>
    cases n with
    | zero => simp
    | succ m =>
      simp only [List.drop_succ_cons, List.get_cons_succ]
      exact ih m (by simpa using h)

theorem length_linspace (a b : ℚ) (n : ℕ) : (linspace a b n).length = n := by
  rw [linspace, List.length_map, List.length_range]

theorem mem_linspace (a b : ℚ) (n : ℕ) (v : ℚ) :
    v ∈ linspace a b n ↔ ∃ i, i < n ∧ v = a + (b - a) * i / ((n : ℚ) - 1) := by
  constructor
  · intro hv
    rw [linspace] at hv
    obtain ⟨i, hi, he⟩ := List.mem_map.mp hv
    exact ⟨i, List.mem_range.mp hi, he.symm⟩
  · rintro ⟨i, hi, rfl⟩
    rw [linspace]
    exact List.mem_map.mpr ⟨i, List.mem_range.mpr hi, rfl⟩

theorem linspace_sample_mem (a b : ℚ) (n i : ℕ) (h : i < n) :
    a + (b - a) * i / ((n : ℚ) - 1) ∈ linspace a b n :=
  (mem_linspace a b n _).mpr ⟨i, h, rfl⟩

theorem linspace_bounds (a b : ℚ) (n : ℕ) (hab : a ≤ b) (hn : 2 ≤ n) (v : ℚ)
    (hv : v ∈ linspace a b n) : a ≤ v ∧ v ≤ b := by
  rw [mem_linspace] at hv
  obtain ⟨i, hi, rfl⟩ := hv
  have hn1 : (1 : ℚ) ≤ (n : ℚ) - 1 := by
    have : (2 : ℚ) ≤ (n : ℚ) := by exact_mod_cast hn
    linarith
  have hi1 : (i : ℚ) ≤ (n : ℚ) - 1 := by
    have : (i : ℚ) + 1 ≤ (n : ℚ) := by exact_mod_cast hi
    linarith
  have hipos : (0 : ℚ) ≤ (i : ℚ) := by positivity
  constructor
  · have : 0 ≤ (b - a) * i / ((n : ℚ) - 1) :=
      div_nonneg (mul_nonneg (by linarith) hipos) (by linarith)
    linarith
  · have hfrac : (b - a) * i / ((n : ℚ) - 1) ≤ b - a := by
      rw [mul_div_assoc]
      have h01 : (i : ℚ) / ((n : ℚ) - 1) ≤ 1 := by
        rw [div_le_one (by linarith)]; exact hi1
      calc (b - a) * ((i : ℚ) / ((n : ℚ) - 1)) ≤ (b - a) * 1 :=
            mul_le_mul_of_nonneg_left h01 (by linarith)
        _ = b - a := mul_one _
    linarith

theorem selectMinBy_spec (p0 : ℚ × ℚ) (rest : List (ℚ × ℚ)) :
    ∃ p ∈ p0 :: rest, selectMinBy (p0 :: rest) = some p.2 ∧
      ∀ q ∈ p0 :: rest, p.1 ≤ q.1 := by
  have key : ∀ (l : List (ℚ × ℚ)) (acc : ℚ × ℚ),
      (l.foldl (fun acc q => if q.1 < acc.1 then q else acc) acc) ∈ acc :: l ∧
      ∀ q ∈ acc :: l, (l.foldl (fun acc q => if q.1 < acc.1 then q else acc) acc).1 ≤ q.1 := by
    intro l
    induction l with
    | nil =>
      intro acc
      refine ⟨by simp, ?_⟩
      intro q hq
      simp only [List.mem_singleton] at hq
      simp [hq]
    | cons x l ih =>
      intro acc
      have step : ((x :: l).foldl (fun acc q => if q.1 < acc.1 then q else acc) acc) =
          (l.foldl (fun acc q => if q.1 < acc.1 then q else acc)
            (if x.1 < acc.1 then x else acc)) := rfl
      obtain ⟨ihmem, ihle⟩ := ih (if x.1 < acc.1 then x else acc)
      constructor
      · rw [step]
        rcases List.mem_cons.mp ihmem with h | h
        · rw [h]; split <;> simp
        · simp [List.mem_cons_of_mem, h]
      · intro q hq
        rw [step]
        have hacc : (l.foldl (fun acc q => if q.1 < acc.1 then q else acc)
            (if x.1 < acc.1 then x else acc)).1 ≤ (if x.1 < acc.1 then x else acc).1 :=
          ihle _ (List.mem_cons_self _ _)
        rcases List.mem_cons.mp hq with h | h
        · subst h
          refine le_trans hacc ?_
          split
          · exact le_of_lt (by assumption)
          · exact le_rfl
        · rcases List.mem_cons.mp h with h2 | h2
          · subst h2
            refine le_trans hacc ?_
            split
            · exact le_rfl
            · exact le_of_not_lt (by assumption)
          · exact ihle q (List.mem_cons_of_mem _ h2)
  obtain ⟨hmem, hle⟩ := key rest p0
  exact ⟨_, hmem, rfl, hle⟩

theorem zip_map_self_mem (k : ℚ → ℚ) (l : List ℚ) (p : ℚ × ℚ)
    (hp : p ∈ (l.map k).zip l) : p.1 = k p.2 ∧ p.2 ∈ l := by
  induction l with
  | nil => simp at hp
  | cons x xs ih =>
    simp only [List.map_cons, List.zip_cons_cons, List.mem_cons] at hp
    rcases hp with h | h
    · subst h; exact ⟨rfl, List.mem_cons_self _ _⟩
    · obtain ⟨h1, h2⟩ := ih h
      exact ⟨h1, List.mem_cons_of_mem _ h2⟩

theorem mapMO_eq_some {α β : Type} (f : α → Option β) (g : α → β) (l : List α)
    (h : ∀ x ∈ l, f x = some (g x)) : mapMO f l = some (l.map g) := by
  induction l with
  | nil => rfl
  | cons x xs ih =>
    have hx : f x = some (g x) := h x (List.mem_cons_self _ _)
    have hxs : mapMO f xs = some (xs.map g) :=
      ih (fun y hy => h y (List.mem_cons_of_mem _ hy))
    simp [mapMO, hx, hxs]

theorem grid_pin (a b t : ℚ) (n i i0 : ℕ)
    (hstep : (b - a) / ((n : ℚ) - 1) ≠ 0)
    (h1 : |a + (b - a) * i / ((n : ℚ) - 1) - t| ≤ |a + (b - a) * i0 / ((n : ℚ) - 1) - t|)
    (h2 : 2 * |a + (b - a) * i0 / ((n : ℚ) - 1) - t| < |(b - a) / ((n : ℚ) - 1)|) :
    i = i0 := by
  set s : ℚ := (b - a) / ((n : ℚ) - 1) with hs
  have hgi : a + (b - a) * i / ((n : ℚ) - 1) - (a + (b - a) * i0 / ((n : ℚ) - 1)) =
      s * ((i : ℚ) - (i0 : ℚ)) := by
    rw [hs]; ring
  have htri : |s * ((i : ℚ) - (i0 : ℚ))| < |s| := by
    rw [← hgi]
    calc |a + (b - a) * i / ((n : ℚ) - 1) - (a + (b - a) * i0 / ((n : ℚ) - 1))|
        ≤ |a + (b - a) * i / ((n : ℚ) - 1) - t| +
          |a + (b - a) * i0 / ((n : ℚ) - 1) - t| := by
          have := abs_sub_le (a + (b - a) * i / ((n : ℚ) - 1)) t
            (a + (b - a) * i0 / ((n : ℚ) - 1))
          simpa [abs_sub_comm] using this
      _ < |s| := by linarith
  rw [abs_mul] at htri
  have hspos : 0 < |s| := abs_pos.mpr hstep
  have hlt1 : |(i : ℚ) - (i0 : ℚ)| < 1 := by
    by_contra hcon
    push_neg at hcon
    nlinarith
  have h3 := abs_lt.mp hlt1
  have hi1 : (i : ℚ) < (i0 : ℚ) + 1 := by linarith [h3.2]
  have hi2 : (i0 : ℚ) < (i : ℚ) + 1 := by linarith [h3.1]
  have hn1 : i < i0 + 1 := by exact_mod_cast hi1
  have hn2 : i0 < i + 1 := by exact_mod_cast hi2
  omega

theorem mem_zip_map_self (k : ℚ → ℚ) (l : List ℚ) (x : ℚ) (hx : x ∈ l) :
    (k x, x) ∈ (l.map k).zip l := by
  induction l with
  | nil => cases hx
  | cons y ys ih =>
    simp only [List.map_cons, List.zip_cons_cons, List.mem_cons]
    rcases List.mem_cons.mp hx with h | h
    · exact Or.inl (by rw [h])
    · exact Or.inr (ih h)

/-- The grid point nearest the crossing is selected: when the key function on
the 1000-sample grid is a positive multiple of the distance to a fixed point
t, and sample i0 is within half a grid step of t, the first-minimum search
returns exactly sample i0. -/
theorem selectMin_linspace_pin (a B t ss : ℚ) (kf : ℚ → ℚ) (i0 : ℕ)
    (hkey : ∀ x ∈ linspace a B 1000, kf x = |ss| * |x - t|)
    (hss : ss ≠ 0) (hi0 : i0 < 1000)
    (hpin : 2 * |(a + (B - a) * (i0 : ℚ) / ((1000 : ℚ) - 1)) - t| <
      |(B - a) / ((1000 : ℚ) - 1)|) :
    selectMinBy (((linspace a B 1000).map kf).zip (linspace a B 1000)) =
      some (a + (B - a) * (i0 : ℚ) / ((1000 : ℚ) - 1)) := by
  set g0 : ℚ := a + (B - a) * (i0 : ℚ) / ((1000 : ℚ) - 1) with hg0
  have hg0mem : g0 ∈ linspace a B 1000 := by
    rw [hg0]; exact linspace_sample_mem a B 1000 i0 hi0
  have hstep : (B - a) / ((1000 : ℚ) - 1) ≠ 0 := by
    intro h0
    rw [h0, abs_zero] at hpin
    have := abs_nonneg (g0 - t)
    linarith
  obtain ⟨q, rest, hql⟩ : ∃ q rest, ((linspace a B 1000).map kf).zip (linspace a B 1000) =
      q :: rest := by
    have hlen : (((linspace a B 1000).map kf).zip (linspace a B 1000)).length = 1000 := by
      rw [List.length_zip, List.length_map, length_linspace]
      simp
    cases hzl : ((linspace a B 1000).map kf).zip (linspace a B 1000) with
    | nil => rw [hzl] at hlen; simp at hlen
    | cons q rest => exact ⟨q, rest, rfl⟩
  rw [hql]
  obtain ⟨p, hpmem, hpsel, hpmin⟩ := selectMinBy_spec q rest
  rw [← hql] at hpmem hpmin
  obtain ⟨hp1, hp2⟩ := zip_map_self_mem kf (linspace a B 1000) p hpmem
  have hg0pair : (kf g0, g0) ∈ ((linspace a B 1000).map kf).zip (linspace a B 1000) :=
    mem_zip_map_self kf _ g0 hg0mem
  have hle : kf p.2 ≤ kf g0 := by
    have := hpmin (kf g0, g0) hg0pair
    rw [hp1] at this
    exact this
  rw [hkey p.2 hp2, hkey g0 hg0mem] at hle
  have hssabs : 0 < |ss| := abs_pos.mpr hss
  have hdist : |p.2 - t| ≤ |g0 - t| := le_of_mul_le_mul_left (by linarith [hle]) hssabs
  obtain ⟨i, hi, hieq⟩ := (mem_linspace a B 1000 p.2).mp hp2
  have hq : ((1000 : ℕ) : ℚ) - 1 = (1000 : ℚ) - 1 := by norm_num
  rw [hq] at hieq
  have hii : i = i0 := by
    refine grid_pin a B t 1000 i i0 ?_ ?_ ?_
    · rw [hq]; exact hstep
    · rw [hq, ← hieq, ← hg0]; exact hdist
    · rw [hq, ← hg0]; exact hpin
  rw [hpsel, hieq, hii, ← hg0]

theorem sort_two (p q : ℚ × ℚ) (h : p.1 ≤ q.1) :
    [p, q].insertionSort (fun s t => s.1 ≤ t.1) = [p, q] := by
  simp [List.insertionSort, List.orderedInsert, h]

theorem mkInterp1d_two (x1 x2 y1 y2 : ℚ) (be : Bool) (h : x1 ≤ x2) :
    mkInterp1d [x1, x2] [y1, y2] be =
      { pts := [(x1, y1), (x2, y2)], bounds_error := be } := by
  unfold mkInterp1d
  rw [show [x1, x2].zip [y1, y2] = [(x1, y1), (x2, y2)] from rfl]
  rw [sort_two (x1, y1) (x2, y2) h]

theorem eval_two_noBounds (x1 x2 y1 y2 x : ℚ) :
    Interp1d.eval { pts := [(x1, y1), (x2, y2)], bounds_error := false } x =
      some (y1 + (y2 - y1) * (x - x1) / (x2 - x1)) := by
  simp [Interp1d.eval, interpSorted]

theorem eval_two_bounds (x1 x2 y1 y2 x : ℚ) (h1 : x1 ≤ x) (h2 : x ≤ x2) :
    Interp1d.eval { pts := [(x1, y1), (x2, y2)], bounds_error := true } x =
      some (y1 + (y2 - y1) * (x - x1) / (x2 - x1)) := by
  have hcond : ¬ (x < x1 ∨ x2 < x) := by
    push_neg
    exact ⟨h1, h2⟩
  simp [Interp1d.eval, interpSorted, hcond]

theorem listMinD_two (x1 x2 : ℚ) (h : x1 ≤ x2) : listMinD [x1, x2] 0 = x1 := by
  simp [listMinD, minQ, h]

theorem listMaxD_two (x1 x2 : ℚ) (h : x1 ≤ x2) : listMaxD [x1, x2] 0 = x2 := by
  rcases eq_or_lt_of_le h with h | h
  · simp [listMaxD, maxQ, h]
  · simp [listMaxD, maxQ, not_le.mpr h]

/-- Closed form of solveAxis on a two-row frame: the interpolant is the line
through the two observed points, and when grid sample i0 lies within half a
grid step of the exact crossing t, the nearest-sample search returns exactly
sample i0. -/
theorem solveAxis_two_point (thr : ℚ) (nc : Bool) (r1 r2 : DiagRow) (axis : String)
    (x1 x2 y1 y2 B t g0 : ℚ) (i0 : ℕ)
    (hx1 : r1.colValue axis = x1) (hx2 : r2.colValue axis = x2)
    (hy1 : r1.fractional_metric = y1) (hy2 : r2.fractional_metric = y2)
    (hx : x1 < x2) (hy : y1 ≠ y2) (hi0 : i0 < 1000)
    (hB : B = (if nc then xThreshExtrap thr [x1, x2] [y1, y2] else x2))
    (ht : t = x1 + (thr - y1) * (x2 - x1) / (y2 - y1))
    (hg0 : g0 = x1 + (B - x1) * (i0 : ℚ) / ((1000 : ℚ) - 1))
    (hpin : 2 * |g0 - t| < |(B - x1) / ((1000 : ℚ) - 1)|) :
    solveAxis thr nc [r1, r2] axis = .ok g0 := by
  have hxs : [r1, r2].map (fun r => r.colValue axis) = [x1, x2] := by
    simp [hx1, hx2]
  have hys : [r1, r2].map (fun r => r.fractional_metric) = [y1, y2] := by
    simp [hy1, hy2]
  have hxne : x2 - x1 ≠ 0 := sub_ne_zero.mpr (ne_of_gt hx)
  have hyne : y2 - y1 ≠ 0 := sub_ne_zero.mpr (Ne.symm hy)
  set ss : ℚ := (y2 - y1) / (x2 - x1) with hssdef
  have hss : ss ≠ 0 := div_ne_zero hyne hxne
  have hline : ∀ x : ℚ, (y1 + (y2 - y1) * (x - x1) / (x2 - x1)) - thr = ss * (x - t) := by
    intro x
    rw [ht, hssdef]
    field_simp
    ring
  have hkey : ∀ x ∈ linspace x1 B 1000,
      absQ ((y1 + (y2 - y1) * (x - x1) / (x2 - x1)) - thr) = |ss| * |x - t| := by
    intro x _
    rw [absQ_eq_abs, hline x, abs_mul]
  cases nc with
  | false =>
    simp only [Bool.false_eq_true, if_false] at hB
    rw [hB] at hg0 hpin
    have hkey2 : ∀ x ∈ linspace x1 x2 1000,
        absQ ((y1 + (y2 - y1) * (x - x1) / (x2 - x1)) - thr) = |ss| * |x - t| := by
      intro x _
      rw [absQ_eq_abs, hline x, abs_mul]
    unfold solveAxis
    rw [hxs, hys]
    simp only [Bool.false_eq_true, if_false, Bool.not_false]
    rw [listMinD_two x1 x2 hx.le, listMaxD_two x1 x2 hx.le,
      mkInterp1d_two x1 x2 y1 y2 true hx.le]
    rw [mapMO_eq_some _ (fun x => y1 + (y2 - y1) * (x - x1) / (x2 - x1)) _
      (fun x hxmem => by
        obtain ⟨hlo, hhi⟩ := linspace_bounds x1 x2 1000 hx.le (by norm_num) x hxmem
        exact eval_two_bounds x1 x2 y1 y2 x hlo hhi)]
    rw [Option.elim_some, List.map_map]
    rw [show ((fun v => absQ (v - thr)) ∘ (fun x => y1 + (y2 - y1) * (x - x1) / (x2 - x1)))
      = (fun x => absQ ((y1 + (y2 - y1) * (x - x1) / (x2 - x1)) - thr)) from rfl]
    rw [selectMin_linspace_pin x1 x2 t ss _ i0 hkey2 hss hi0 (by rw [← hg0]; exact hpin)]
    rw [Option.elim_some, ← hg0]
  | true =>
    simp only [if_true] at hB
    unfold solveAxis
    rw [hxs, hys]
    simp only [if_true, Bool.not_true]
    rw [listMinD_two x1 x2 hx.le, ← hB,
      mkInterp1d_two x1 x2 y1 y2 false hx.le]
    rw [mapMO_eq_some _ (fun x => y1 + (y2 - y1) * (x - x1) / (x2 - x1)) _
      (fun x _ => eval_two_noBounds x1 x2 y1 y2 x)]
    rw [Option.elim_some, List.map_map]
    rw [show ((fun v => absQ (v - thr)) ∘ (fun x => y1 + (y2 - y1) * (x - x1) / (x2 - x1)))
      = (fun x => absQ ((y1 + (y2 - y1) * (x - x1) / (x2 - x1)) - thr)) from rfl]
    rw [selectMin_linspace_pin x1 B t ss _ i0 hkey hss hi0 (by rw [← hg0]; exact hpin)]
    rw [Option.elim_some, ← hg0]

/-- Assembly of solveFiltered for the default two interpolation axes when
both per-axis searches succeed with positive crossings: the result row holds
the initial throughput, both axis crossings, and the derived real
throughput. -/
theorem solveFiltered_two_axes (ct met a2 : String) (thr : ℚ) (df : List DiagRow)
    (v1 v2 : ℚ)
    (h1 : solveAxis thr
      (decide (thr < listMinD (df.map (fun r => r.fractional_metric)) 0)) df
      "normalized_regular_throughput" = .ok v1)
    (h2 : solveAxis thr
      (decide (thr < listMinD (df.map (fun r => r.fractional_metric)) 0)) df a2 = .ok v2)
    (hv1 : 0 < v1) (hv2 : 0 < v2) :
    solveFiltered ct met ["normalized_regular_throughput", a2] thr df =
      .ok [("initial_regular_throughput", initialThroughput df),
           (axisKey ct met thr "normalized_regular_throughput", v1),
           (axisKey ct met thr a2, v2),
           (axisKey ct met thr "real_regular_throughput", v1 * initialThroughput df)] := by
  simp only [solveFiltered]
  rw [show mapME (solveAxis thr
      (decide (thr < listMinD (df.map (fun r => r.fractional_metric)) 0)) df)
      ["normalized_regular_throughput", a2] = .ok [v1, v2] by
    unfold mapME mapME mapME
    rw [h1, h2]]
  have hcond : ¬ (¬ 0 < v1 ∨ ¬ 0 < v2) := by
    push_neg
    exact ⟨hv1, hv2⟩
  simp only [hcond, if_false, ite_false]
  have hcontains : (["normalized_regular_throughput", a2].contains
      "normalized_regular_throughput") = true := by
    simp [List.contains_cons]
  have hidx : ["normalized_regular_throughput", a2].indexOf
      "normalized_regular_throughput" = 0 := List.indexOf_cons_self _ _
  simp only [hcontains, if_true, hidx, List.getD, List.getElem?_cons_zero, Option.getD_some]
  simp [List.zip, List.zipWith, axisKey]

/-- Hyperparameters for claim C1: default configuration except that
extrapolation on miss is disabled. -/
def hpC1 : ThresholdHP :=
  { cycle_type := "rpt_1C", metric := "discharge_energy",
    interpolation_axes := ["normalized_regular_throughput", "cycle_index"],
    threshold := 4/5, filter_kinks := none, extrapolate_threshold := false }

/-- A two-cycle diagnostic series whose fractional metric stays above the
0.8 threshold (1 and then 0.9). -/
def dfC1 : List DiagRow :=
  [{ cycle_index := 0, fractional_metric := 1, initial_regular_throughput := 1,
     col := fun _ => 1 },
   { cycle_index := 10, fractional_metric := 9/10, initial_regular_throughput := 1,
     col := fun _ => 2 }]

/-- Hyperparameters for claim C3: the default DiagnosticProperties
configuration (threshold 0.8, both default axes, no kink filter). -/
def hpC3 : ThresholdHP :=
  { cycle_type := "rpt_1C", metric := "discharge_energy",
    interpolation_axes := ["normalized_regular_throughput", "cycle_index"],
    threshold := 4/5, filter_kinks := none, extrapolate_threshold := true }

/-- First point of the C3 series: x = 0 on both axes, y = 1. -/
def rowC3a : DiagRow :=
  { cycle_index := 0, fractional_metric := 1, initial_regular_throughput := 1,
    col := fun _ => 0 }

/-- Second point of the C3 series: x = 100 on both axes, y = 1/2. -/
def rowC3b : DiagRow :=
  { cycle_index := 100, fractional_metric := 1/2, initial_regular_throughput := 1,
    col := fun s => if s = "normalized_regular_throughput" then 100 else 0 }

/-- The C3 series: y decreasing linearly from 1.0 to 0.5 over x = 0..100. -/
def dfC3 : List DiagRow := [rowC3a, rowC3b]

/-- Claim C1 (code_bug): on a fractional-metric series whose minimum stays
above the threshold, with extrapolation disabled, get_threshold_targets does
not raise the BEEPFeaturizationError carrying the message about not having
crossed the threshold: the error object is constructed at core.py lines
841-844 but never raised, and the computation instead crashes with an
UnboundLocalError when line 875 reads the never-assigned bounds_error.  No
crossing result is returned. -/
theorem C1_not_crossed_without_extrapolation_crashes_without_message :
    get_threshold_targets hpC1 dfC1 = .error (.unboundLocal "bounds_error") ∧
    ∀ msg : String, get_threshold_targets hpC1 dfC1 ≠ .error (.featurization msg) := by
  have h : get_threshold_targets hpC1 dfC1 = .error (.unboundLocal "bounds_error") := rfl
  refine ⟨h, ?_⟩
  intro msg hcon
  rw [h] at hcon
  simp at hcon

/-- The run of get_threshold_targets on the linear C3 series: the solver
returns grid sample 400, x = 40000/999, on both axes. -/
theorem linear_series_run :
    get_threshold_targets hpC3 dfC3 =
      .ok [("initial_regular_throughput", 1),
           (axisKey "rpt_1C" "discharge_energy" (4/5) "normalized_regular_throughput",
             40000/999),
           (axisKey "rpt_1C" "discharge_energy" (4/5) "cycle_index", 40000/999),
           (axisKey "rpt_1C" "discharge_energy" (4/5) "real_regular_throughput",
             40000/999)] := by
  have hpin : 2 * |(40000 : ℚ)/999 - 40| < |((100 : ℚ) - 0) / ((1000 : ℚ) - 1)| := by
    rw [show (40000 : ℚ)/999 - 40 = 40/999 by norm_num,
      show ((100 : ℚ) - 0) / ((1000 : ℚ) - 1) = 100/999 by norm_num,
      abs_of_pos (by norm_num : (0 : ℚ) < 40/999),
      abs_of_pos (by norm_num : (0 : ℚ) < 100/999)]
    norm_num
  have hax1 : solveAxis (4/5) false dfC3 "normalized_regular_throughput" =
      .ok (40000/999) := by
    exact solveAxis_two_point (4/5) false rowC3a rowC3b "normalized_regular_throughput"
      0 100 1 (1/2) 100 40 (40000/999) 400 rfl rfl rfl rfl (by norm_num) (by norm_num)
      (by norm_num) rfl (by norm_num) (by push_cast; norm_num) hpin
  have hax2 : solveAxis (4/5) false dfC3 "cycle_index" = .ok (40000/999) := by
    exact solveAxis_two_point (4/5) false rowC3a rowC3b "cycle_index"
      0 100 1 (1/2) 100 40 (40000/999) 400 rfl rfl rfl rfl (by norm_num) (by norm_num)
      (by norm_num) rfl (by norm_num) (by push_cast; norm_num) hpin
  have hnc : (decide ((4/5 : ℚ) <
      listMinD (List.map (fun r => r.fractional_metric) dfC3) 0)) = false := by
    rw [show listMinD (List.map (fun r => r.fractional_metric) dfC3) 0 = 1/2 by
      norm_num [dfC3, rowC3a, rowC3b, listMinD, minQ]]
    norm_num
  rw [← hnc] at hax1 hax2
  have hmain := solveFiltered_two_axes "rpt_1C" "discharge_energy" "cycle_index" (4/5)
    dfC3 (40000/999) (40000/999) hax1 hax2 (by norm_num) (by norm_num)
  have hred : get_threshold_targets hpC3 dfC3 = solveFiltered "rpt_1C" "discharge_energy"
      ["normalized_regular_throughput", "cycle_index"] (4/5) dfC3 := by
    simp only [get_threshold_targets]
    rw [show kinkFilter hpC3.filter_kinks dfC3 = dfC3 from rfl]
    rw [show listMinD (List.map (fun r => r.fractional_metric) dfC3) 0 = 1/2 by
      norm_num [dfC3, rowC3a, rowC3b, listMinD, minQ]]
    have hno : ¬ (hpC3.threshold < 1/2 ∧ hpC3.extrapolate_threshold = false) := by
      intro h
      have := h.1
      norm_num [hpC3] at this
    rw [if_neg hno]
    have hlen : ¬ (dfC3.length < 2) := by norm_num [dfC3]
    rw [if_neg hlen]
    rfl
  rw [hred, hmain]
  have hinit : initialThroughput dfC3 = 1 := rfl
  rw [hinit, mul_one]

/-- Claim C3: on the series decreasing linearly from y = 1.0 to y = 0.5 over
x = 0..100 with threshold 0.8, get_threshold_targets builds the uniform
1000-sample grid over the observed x range of each axis and returns the grid
point minimising the distance of the linear interpolant to the threshold:
sample 400, i.e. x = 40000/999, which lies within (range/1000) = 0.1 of the
exact crossing x = 40. -/
theorem C3_linear_series_crossing :
    get_threshold_targets hpC3 dfC3 =
      .ok [("initial_regular_throughput", 1),
           (axisKey "rpt_1C" "discharge_energy" (4/5) "normalized_regular_throughput",
             40000/999),
           (axisKey "rpt_1C" "discharge_energy" (4/5) "cycle_index", 40000/999),
           (axisKey "rpt_1C" "discharge_energy" (4/5) "real_regular_throughput",
             40000/999)] ∧
    |(40000 : ℚ)/999 - 40| ≤ (100 - 0) / 1000 := by
  refine ⟨linear_series_run, ?_⟩
  rw [show (40000 : ℚ)/999 - 40 = 40/999 by norm_num,
    abs_of_pos (by norm_num : (0 : ℚ) < 40/999)]
  norm_num

/-- Hyperparameters for claim C4: kink filtering enabled with the magnitude
0.04 that the source docstring names as typical. -/
def hpC4 : ThresholdHP :=
  { cycle_type := "rpt_1C", metric := "discharge_energy",
    interpolation_axes := ["normalized_regular_throughput", "cycle_index"],
    threshold := 4/5, filter_kinks := some (1/25), extrapolate_threshold := true }

/-- The C4 configuration with the kink filter switched off. -/
def hpC4nk : ThresholdHP :=
  { cycle_type := "rpt_1C", metric := "discharge_energy",
    interpolation_axes := ["normalized_regular_throughput", "cycle_index"],
    threshold := 4/5, filter_kinks := none, extrapolate_threshold := true }

/-- A perfectly linear (kink-free) degradation series: y falls by exactly
0.05 per cycle, so every second difference is zero. -/
def dfC4 : List DiagRow :=
  [{ cycle_index := 0, fractional_metric := 1, initial_regular_throughput := 1,
     col := fun _ => 1 },
   { cycle_index := 1, fractional_metric := 19/20, initial_regular_throughput := 1,
     col := fun _ => 2 },
   { cycle_index := 2, fractional_metric := 9/10, initial_regular_throughput := 1,
     col := fun _ => 3 },
   { cycle_index := 3, fractional_metric := 17/20, initial_regular_throughput := 1,
     col := fun _ => 4 },
   { cycle_index := 4, fractional_metric := 4/5, initial_regular_throughput := 1,
     col := fun _ => 5 }]

/-- Claim C4 (code_bug): the sign of the kink condition.  On the linear
series dfC4 no second difference of the fractional metric falls below the
negative of the configured magnitude (they are all zero, and -0.04 < 0), so
under the specified rule nothing would be truncated; yet core.py line 828
compares diff().diff() < filter_kinks with the POSITIVE magnitude, which
fires on every smooth series: the code truncates the frame to its first two
rows, and the whole computation proceeds exactly as if only those two rows
existed. -/
theorem C4_kink_filter_fires_without_kink :
    (secondDiffs (dfC4.map (fun r => r.fractional_metric))).all
      (fun o => !(optLtB o (-(1/25)))) = true ∧
    kinkFilter (some (1/25)) dfC4 = dfC4.take 2 ∧
    get_threshold_targets hpC4 dfC4 = get_threshold_targets hpC4nk (dfC4.take 2) := by
  refine ⟨rfl, rfl, ?_⟩
  have hL : get_threshold_targets hpC4 dfC4 = solveFiltered "rpt_1C" "discharge_energy"
      ["normalized_regular_throughput", "cycle_index"] (4/5) (dfC4.take 2) := by
    simp only [get_threshold_targets]
    rw [show kinkFilter hpC4.filter_kinks dfC4 = dfC4.take 2 from rfl]
    have hno : ¬ (hpC4.threshold <
        listMinD (List.map (fun r => r.fractional_metric) (dfC4.take 2)) 0 ∧
        hpC4.extrapolate_threshold = false) := by
      intro h
      have := h.2
      norm_num [hpC4] at this
    rw [if_neg hno]
    have hlen : ¬ ((dfC4.take 2).length < 2) := by norm_num [dfC4]
    rw [if_neg hlen]
    rfl
  have hR : get_threshold_targets hpC4nk (dfC4.take 2) =
      solveFiltered "rpt_1C" "discharge_energy"
      ["normalized_regular_throughput", "cycle_index"] (4/5) (dfC4.take 2) := by
    simp only [get_threshold_targets]
    rw [show kinkFilter hpC4nk.filter_kinks (dfC4.take 2) = dfC4.take 2 from rfl]
    have hno : ¬ (hpC4nk.threshold <
        listMinD (List.map (fun r => r.fractional_metric) (dfC4.take 2)) 0 ∧
        hpC4nk.extrapolate_threshold = false) := by
      intro h
      have := h.2
      norm_num [hpC4nk] at this
    rw [if_neg hno]
    have hlen : ¬ ((dfC4.take 2).length < 2) := by norm_num [dfC4]
    rw [if_neg hlen]
    rfl
  rw [hL, hR]

theorem xThreshExtrap_two (thr x1 x2 y1 y2 : ℚ) :
    xThreshExtrap thr [x1, x2] [y1, y2] =
      (thr - 1/10 - y1) * (x2 - x1) / (y2 - y1) + x1 := rfl

/-- The extrapolated endpoint lies strictly beyond the observed maximum of a
strictly increasing axis when the fractional metric is strictly decreasing
and its last value is still above the threshold. -/
theorem xThreshExtrap_gt (thr : ℚ) (xs ys : List ℚ)
    (hx : ilocPenult xs < ilocLast xs) (hyd : ilocLast ys < ilocPenult ys)
    (hythr : thr < ilocLast ys) :
    ilocLast xs < xThreshExtrap thr xs ys := by
  unfold xThreshExtrap
  set X1 := ilocPenult xs with hX1
  set X2 := ilocLast xs with hX2
  set Y1 := ilocPenult ys with hY1
  set Y2 := ilocLast ys with hY2
  have hD : 0 < Y1 - Y2 := by linarith
  have hX : 0 < X2 - X1 := by linarith
  have hne1 : Y2 - Y1 ≠ 0 := by intro h; rw [sub_eq_zero] at h; exact absurd h (ne_of_lt hyd)
  have hne2 : Y1 - Y2 ≠ 0 := by intro h; rw [sub_eq_zero] at h; exact absurd h.symm (ne_of_lt hyd)
  have key : (thr - 1/10 - Y1) * (X2 - X1) / (Y2 - Y1) + X1 - X2 =
      ((Y2 - thr + 1/10) * (X2 - X1)) / (Y1 - Y2) := by
    field_simp
    ring
  have hpos : 0 < ((Y2 - thr + 1/10) * (X2 - X1)) / (Y1 - Y2) :=
    div_pos (mul_pos (by linarith) hX) hD
  rw [← key] at hpos
  linarith

/-- In the extrapolation branch the per-axis search always succeeds and
returns a member of its 1000-sample grid (the bounds check is off). -/
theorem solveAxis_extrap_ok (thr : ℚ) (df : List DiagRow) (axis : String) :
    ∃ v, solveAxis thr true df axis = .ok v ∧
      v ∈ linspace (listMinD (df.map (fun r => r.colValue axis)) 0)
        (xThreshExtrap thr (df.map (fun r => r.colValue axis))
          (df.map (fun r => r.fractional_metric))) 1000 := by
  unfold solveAxis
  simp only [if_true, Bool.not_true]
  set xs := df.map (fun r => r.colValue axis) with hxs
  set ys := df.map (fun r => r.fractional_metric) with hys
  set lin := linspace (listMinD xs 0) (xThreshExtrap thr xs ys) 1000 with hlin
  rw [mapMO_eq_some _ (fun x => interpSorted (mkInterp1d xs ys false).pts x) _
    (fun x _ => by simp [Interp1d.eval, mkInterp1d])]
  rw [Option.elim_some, List.map_map]
  obtain ⟨q, rest, hql⟩ : ∃ q rest,
      (lin.map ((fun v => absQ (v - thr)) ∘
        (fun x => interpSorted (mkInterp1d xs ys false).pts x))).zip lin = q :: rest := by
    have hlen : ((lin.map ((fun v => absQ (v - thr)) ∘
        (fun x => interpSorted (mkInterp1d xs ys false).pts x))).zip lin).length = 1000 := by
      rw [List.length_zip, List.length_map, hlin, length_linspace]
      simp
    cases hzl : (lin.map ((fun v => absQ (v - thr)) ∘
        (fun x => interpSorted (mkInterp1d xs ys false).pts x))).zip lin with
    | nil => rw [hzl] at hlen; simp at hlen
    | cons q rest => exact ⟨q, rest, rfl⟩
  rw [hql]
  obtain ⟨p, hpmem, hpsel, _⟩ := selectMinBy_spec q rest
  rw [← hql] at hpmem
  obtain ⟨_, hp2⟩ := zip_map_self_mem _ lin p hpmem
  exact ⟨p.2, by rw [hpsel, Option.elim_some], hp2⟩

/-- Claim C5, amended: for every strictly decreasing fractional-metric
series (over strictly increasing, positive interpolation axes) whose
minimum stays above the threshold, with extrapolation enabled and the
default two axes, get_threshold_targets succeeds and returns, per axis, a
positive finite crossing bounded by the extrapolated endpoint where the
line through the last two points reaches threshold - 0.1.  (The crossing
need not lie beyond the observed x range; see the counterexample.) -/
theorem C5_extrapolated_crossing_positive (hp : ThresholdHP) (df : List DiagRow)
    (hex : hp.extrapolate_threshold = true)
    (hfk : hp.filter_kinks = none)
    (haxes : hp.interpolation_axes = ["normalized_regular_throughput", "cycle_index"])
    (hlen : 2 ≤ df.length)
    (hdec : (df.map (fun r => r.fractional_metric)).Pairwise (fun a b => b < a))
    (habove : ∀ r ∈ df, hp.threshold < r.fractional_metric)
    (hax : ∀ a ∈ hp.interpolation_axes,
      (df.map (fun r => r.colValue a)).Pairwise (fun u v => u < v) ∧
      (∀ r ∈ df, 0 < r.colValue a)) :
    ∃ v1 v2, get_threshold_targets hp df =
      .ok [("initial_regular_throughput", initialThroughput df),
           (axisKey hp.cycle_type hp.metric hp.threshold "normalized_regular_throughput", v1),
           (axisKey hp.cycle_type hp.metric hp.threshold "cycle_index", v2),
           (axisKey hp.cycle_type hp.metric hp.threshold "real_regular_throughput",
             v1 * initialThroughput df)] ∧
      0 < v1 ∧ 0 < v2 ∧
      v1 ≤ xThreshExtrap hp.threshold
        (df.map (fun r => r.colValue "normalized_regular_throughput"))
        (df.map (fun r => r.fractional_metric)) ∧
      v2 ≤ xThreshExtrap hp.threshold (df.map (fun r => r.colValue "cycle_index"))
        (df.map (fun r => r.fractional_metric)) := by
  have hdf : df ≠ [] := by
    intro h
    rw [h] at hlen
    simp at hlen
  have hylen : (df.map (fun r => r.fractional_metric)).length = df.length :=
    List.length_map _ _
  have hyne : df.map (fun r => r.fractional_metric) ≠ [] := by
    intro h
    have := congrArg List.length h
    rw [hylen] at this
    simp at this
    exact hdf this
  have hymin : hp.threshold < listMinD (df.map (fun r => r.fractional_metric)) 0 := by
    obtain ⟨r, hr, hre⟩ := List.mem_map.mp (listMinD_mem _ 0 hyne)
    rw [← hre]
    exact habove r hr
  have hnc : decide (hp.threshold <
      listMinD (df.map (fun r => r.fractional_metric)) 0) = true := decide_eq_true hymin
  have hylast : hp.threshold < ilocLast (df.map (fun r => r.fractional_metric)) := by
    obtain ⟨r, hr, hre⟩ := List.mem_map.mp
      (ilocLast_mem (df.map (fun r => r.fractional_metric)) (by omega))
    rw [← hre]
    exact habove r hr
  have hydrop : ilocLast (df.map (fun r => r.fractional_metric)) <
      ilocPenult (df.map (fun r => r.fractional_metric)) :=
    pairwise_penult_last _ (by omega) hdec
  have axisFact : ∀ a : String,
      (df.map (fun r => r.colValue a)).Pairwise (fun u v => u < v) →
      (∀ r ∈ df, 0 < r.colValue a) →
      ∃ v, solveAxis hp.threshold true df a = .ok v ∧ 0 < v ∧
        v ≤ xThreshExtrap hp.threshold (df.map (fun r => r.colValue a))
          (df.map (fun r => r.fractional_metric)) := by
    intro a hpw hpos
    obtain ⟨v, hvok, hvmem⟩ := solveAxis_extrap_ok hp.threshold df a
    have hxlen : (df.map (fun r => r.colValue a)).length = df.length := List.length_map _ _
    have hxne : df.map (fun r => r.colValue a) ≠ [] := by
      intro h
      have := congrArg List.length h
      rw [hxlen] at this
      simp at this
      exact hdf this
    have hBgt : ilocLast (df.map (fun r => r.colValue a)) <
        xThreshExtrap hp.threshold (df.map (fun r => r.colValue a))
          (df.map (fun r => r.fractional_metric)) :=
      xThreshExtrap_gt hp.threshold _ _ (pairwise_penult_last _ (by omega) hpw)
        hydrop hylast
    have ha0 : listMinD (df.map (fun r => r.colValue a)) 0 ≤
        ilocLast (df.map (fun r => r.colValue a)) :=
      listMinD_le _ 0 _ (ilocLast_mem _ (by omega))
    obtain ⟨hlo, hhi⟩ := linspace_bounds _ _ 1000 (le_of_lt (lt_of_le_of_lt ha0 hBgt))
      (by norm_num) v hvmem
    have h0a : 0 < listMinD (df.map (fun r => r.colValue a)) 0 := by
      obtain ⟨r, hr, hre⟩ := List.mem_map.mp (listMinD_mem _ 0 hxne)
      rw [← hre]
      exact hpos r hr
    exact ⟨v, hvok, lt_of_lt_of_le h0a hlo, hhi⟩
  obtain ⟨v1, hv1ok, hv1pos, hv1le⟩ :=
    axisFact "normalized_regular_throughput"
      (hax _ (by rw [haxes]; simp)).1 (hax _ (by rw [haxes]; simp)).2
  obtain ⟨v2, hv2ok, hv2pos, hv2le⟩ :=
    axisFact "cycle_index" (hax _ (by rw [haxes]; simp)).1 (hax _ (by rw [haxes]; simp)).2
  have hred : get_threshold_targets hp df =
      solveFiltered hp.cycle_type hp.metric hp.interpolation_axes hp.threshold df := by
    simp only [get_threshold_targets]
    rw [hfk, show kinkFilter none df = df from rfl]
    have hno : ¬ (hp.threshold < listMinD (List.map (fun r => r.fractional_metric) df) 0 ∧
        hp.extrapolate_threshold = false) := by
      intro h
      rw [hex] at h
      exact absurd h.2 (by simp)
    rw [if_neg hno]
    rw [if_neg (show ¬ (df.length < 2) by omega)]
  refine ⟨v1, v2, ?_, hv1pos, hv2pos, hv1le, hv2le⟩
  rw [hred, haxes]
  rw [← hnc] at hv1ok hv2ok
  exact solveFiltered_two_axes hp.cycle_type hp.metric "cycle_index" hp.threshold df
    v1 v2 hv1ok hv2ok hv1pos hv2pos

/-- Hyperparameters for the C5 counterexample: default configuration with
extrapolation enabled. -/
def hpC5x : ThresholdHP :=
  { cycle_type := "rpt_1C", metric := "discharge_energy",
    interpolation_axes := ["normalized_regular_throughput", "cycle_index"],
    threshold := 4/5, filter_kinks := none, extrapolate_threshold := true }

/-- First point of the C5 counterexample series: x = 1, y about 1.7116. -/
def rowC5a : DiagRow :=
  { cycle_index := 1, fractional_metric := 6761/3950, initial_regular_throughput := 1,
    col := fun _ => 1 }

/-- Second point: x about 1.9115, y = 0.8 + 1/7900, a hair above the
threshold, placing the exact crossing just beyond the observed maximum. -/
def rowC5b : DiagRow :=
  { cycle_index := 15101/7900, fractional_metric := 6321/7900,
    initial_regular_throughput := 1, col := fun _ => 15101/7900 }

/-- The C5 counterexample series: strictly decreasing, minimum above the
0.8 threshold. -/
def dfC5x : List DiagRow := [rowC5a, rowC5b]

/-- Claim C5 (counterexample to "lying beyond the observed x-range"): on
the strictly decreasing series dfC5x, whose minimum fractional metric
6321/7900 is above the threshold 4/5, extrapolation succeeds, but the
returned crossing 151/79 = 7550/3950 is STRICTLY BELOW the observed axis
maximum 15101/7900 = 7550.5/3950: the nearest grid sample to the exact
crossing (which lies just beyond the observed maximum) falls inside the
observed range. -/
theorem C5_crossing_inside_observed_range_counterexample :
    hpC5x.extrapolate_threshold = true ∧
    (dfC5x.map (fun r => r.fractional_metric)).Pairwise (fun a b => b < a) ∧
    (∀ r ∈ dfC5x, hpC5x.threshold < r.fractional_metric) ∧
    get_threshold_targets hpC5x dfC5x =
      .ok [("initial_regular_throughput", 1),
           (axisKey "rpt_1C" "discharge_energy" (4/5) "normalized_regular_throughput",
             151/79),
           (axisKey "rpt_1C" "discharge_energy" (4/5) "cycle_index", 151/79),
           (axisKey "rpt_1C" "discharge_energy" (4/5) "real_regular_throughput",
             151/79)] ∧
    (151/79 : ℚ) <
      listMaxD (dfC5x.map (fun r => r.colValue "normalized_regular_throughput")) 0 := by
  have hpin : 2 * |(151 : ℚ)/79 - 7551/3950| < |((3973 : ℚ)/1975 - 1) / ((1000 : ℚ) - 1)| := by
    rw [show (151 : ℚ)/79 - 7551/3950 = -(1/3950) by norm_num,
      show ((3973 : ℚ)/1975 - 1) / ((1000 : ℚ) - 1) = 2/1975 by norm_num,
      abs_neg, abs_of_pos (by norm_num : (0 : ℚ) < 1/3950),
      abs_of_pos (by norm_num : (0 : ℚ) < 2/1975)]
    norm_num
  have hax1 : solveAxis (4/5) true dfC5x "normalized_regular_throughput" =
      .ok (151/79) := by
    exact solveAxis_two_point (4/5) true rowC5a rowC5b "normalized_regular_throughput"
      1 (15101/7900) (6761/3950) (6321/7900) (3973/1975) (7551/3950) (151/79) 900
      rfl rfl rfl rfl (by norm_num) (by norm_num) (by norm_num)
      (by rw [if_pos rfl, xThreshExtrap_two]; norm_num)
      (by norm_num) (by push_cast; norm_num) hpin
  have hax2 : solveAxis (4/5) true dfC5x "cycle_index" = .ok (151/79) := by
    exact solveAxis_two_point (4/5) true rowC5a rowC5b "cycle_index"
      1 (15101/7900) (6761/3950) (6321/7900) (3973/1975) (7551/3950) (151/79) 900
      rfl rfl rfl rfl (by norm_num) (by norm_num) (by norm_num)
      (by rw [if_pos rfl, xThreshExtrap_two]; norm_num)
      (by norm_num) (by push_cast; norm_num) hpin
  have hnc : (decide ((4/5 : ℚ) <
      listMinD (List.map (fun r => r.fractional_metric) dfC5x) 0)) = true := by
    rw [show listMinD (List.map (fun r => r.fractional_metric) dfC5x) 0 = 6321/7900 by
      norm_num [dfC5x, rowC5a, rowC5b, listMinD, minQ]]
    norm_num
  rw [← hnc] at hax1 hax2
  have hmain := solveFiltered_two_axes "rpt_1C" "discharge_energy" "cycle_index" (4/5)
    dfC5x (151/79) (151/79) hax1 hax2 (by norm_num) (by norm_num)
  have hred : get_threshold_targets hpC5x dfC5x = solveFiltered "rpt_1C" "discharge_energy"
      ["normalized_regular_throughput", "cycle_index"] (4/5) dfC5x := by
    simp only [get_threshold_targets]
    rw [show kinkFilter hpC5x.filter_kinks dfC5x = dfC5x from rfl]
    have hno : ¬ (hpC5x.threshold <
        listMinD (List.map (fun r => r.fractional_metric) dfC5x) 0 ∧
        hpC5x.extrapolate_threshold = false) := by
      intro h
      have := h.2
      norm_num [hpC5x] at this
    rw [if_neg hno]
    have hl2 : ¬ (dfC5x.length < 2) := by norm_num [dfC5x]
    rw [if_neg hl2]
    rfl
  refine ⟨rfl, by decide, by decide, ?_, ?_⟩
  · rw [hred, hmain]
    have hinit : initialThroughput dfC5x = 1 := rfl
    rw [hinit, mul_one]
  · rw [show listMaxD (dfC5x.map (fun r => r.colValue "normalized_regular_throughput")) 0
      = 15101/7900 from rfl]
    norm_num

/-- Witness for the amended claim C5 at the concrete series dfC5x. -/
theorem C5_extrapolated_crossing_positive_witness :
    ∃ v1 v2, get_threshold_targets hpC5x dfC5x =
      .ok [("initial_regular_throughput", initialThroughput dfC5x),
           (axisKey hpC5x.cycle_type hpC5x.metric hpC5x.threshold
             "normalized_regular_throughput", v1),
           (axisKey hpC5x.cycle_type hpC5x.metric hpC5x.threshold "cycle_index", v2),
           (axisKey hpC5x.cycle_type hpC5x.metric hpC5x.threshold
             "real_regular_throughput", v1 * initialThroughput dfC5x)] ∧
      0 < v1 ∧ 0 < v2 ∧
      v1 ≤ xThreshExtrap hpC5x.threshold
        (dfC5x.map (fun r => r.colValue "normalized_regular_throughput"))
        (dfC5x.map (fun r => r.fractional_metric)) ∧
      v2 ≤ xThreshExtrap hpC5x.threshold (dfC5x.map (fun r => r.colValue "cycle_index"))
        (dfC5x.map (fun r => r.fractional_metric)) :=
  C5_extrapolated_crossing_positive hpC5x dfC5x rfl rfl rfl (by decide) (by decide)
    (by decide) (by decide)

/-- Assembly of solveFiltered for three interpolation axes: the positivity
guard of core.py line 888 only inspects the first two crossings, so the
third value is never checked. -/
theorem solveFiltered_three_axes (ct met a2 a3 : String) (thr : ℚ) (df : List DiagRow)
    (v1 v2 v3 : ℚ)
    (h1 : solveAxis thr
      (decide (thr < listMinD (df.map (fun r => r.fractional_metric)) 0)) df
      "normalized_regular_throughput" = .ok v1)
    (h2 : solveAxis thr
      (decide (thr < listMinD (df.map (fun r => r.fractional_metric)) 0)) df a2 = .ok v2)
    (h3 : solveAxis thr
      (decide (thr < listMinD (df.map (fun r => r.fractional_metric)) 0)) df a3 = .ok v3)
    (hv1 : 0 < v1) (hv2 : 0 < v2) :
    solveFiltered ct met ["normalized_regular_throughput", a2, a3] thr df =
      .ok [("initial_regular_throughput", initialThroughput df),
           (axisKey ct met thr "normalized_regular_throughput", v1),
           (axisKey ct met thr a2, v2),
           (axisKey ct met thr a3, v3),
           (axisKey ct met thr "real_regular_throughput", v1 * initialThroughput df)] := by
  simp only [solveFiltered]
  rw [show mapME (solveAxis thr
      (decide (thr < listMinD (df.map (fun r => r.fractional_metric)) 0)) df)
      ["normalized_regular_throughput", a2, a3] = .ok [v1, v2, v3] by
    unfold mapME mapME mapME mapME
    rw [h1, h2, h3]]
  have hcond : ¬ (¬ 0 < v1 ∨ ¬ 0 < v2) := by
    push_neg
    exact ⟨hv1, hv2⟩
  simp only [hcond, if_false, ite_false]
  have hcontains : (["normalized_regular_throughput", a2, a3].contains
      "normalized_regular_throughput") = true := by
    simp [List.contains_cons]
  have hidx : ["normalized_regular_throughput", a2, a3].indexOf
      "normalized_regular_throughput" = 0 := List.indexOf_cons_self _ _
  simp only [hcontains, if_true, hidx, List.getD, List.getElem?_cons_zero, Option.getD_some]
  simp [List.zip, List.zipWith, axisKey]

/-- Hyperparameters for the C9 counterexample: a third interpolation axis
beyond the default two. -/
def hpC9x : ThresholdHP :=
  { cycle_type := "rpt_1C", metric := "discharge_energy",
    interpolation_axes :=
      ["normalized_regular_throughput", "cycle_index", "shifted_throughput"],
    threshold := 4/5, filter_kinks := none, extrapolate_threshold := false }

/-- First point of the C9 series: the extra axis takes negative values. -/
def rowC9a : DiagRow :=
  { cycle_index := 0, fractional_metric := 1, initial_regular_throughput := 1,
    col := fun s => if s = "normalized_regular_throughput" then 1
      else if s = "shifted_throughput" then -2 else 0 }

/-- Second point of the C9 series: the metric has crossed the threshold. -/
def rowC9b : DiagRow :=
  { cycle_index := 1, fractional_metric := 7/10, initial_regular_throughput := 1,
    col := fun s => if s = "normalized_regular_throughput" then 2
      else if s = "shifted_throughput" then -1 else 0 }

/-- The C9 series: two points with the fractional metric crossing 0.8. -/
def dfC9x : List DiagRow := [rowC9a, rowC9b]

/-- Claim C9 (counterexample): with three interpolation axes, the third of
which resolves to the negative crossing -4/3, get_threshold_targets returns
a result instead of failing: the positivity check of core.py lines 888-892
hardcodes x_to_threshold[0] and x_to_threshold[1] and never inspects any
further axis, so the claimed post-condition (every axis's resolved crossing
value is positive) is violated on a successful return. -/
theorem C9_unchecked_third_axis_counterexample :
    get_threshold_targets hpC9x dfC9x =
      .ok [("initial_regular_throughput", 1),
           (axisKey "rpt_1C" "discharge_energy" (4/5) "normalized_regular_throughput",
             5/3),
           (axisKey "rpt_1C" "discharge_energy" (4/5) "cycle_index", 2/3),
           (axisKey "rpt_1C" "discharge_energy" (4/5) "shifted_throughput", -(4/3)),
           (axisKey "rpt_1C" "discharge_energy" (4/5) "real_regular_throughput", 5/3)] ∧
    ¬ (0 < (-(4/3) : ℚ)) := by
  have hax1 : solveAxis (4/5) false dfC9x "normalized_regular_throughput" =
      .ok (5/3) := by
    exact solveAxis_two_point (4/5) false rowC9a rowC9b "normalized_regular_throughput"
      1 2 1 (7/10) 2 (5/3) (5/3) 666 rfl rfl rfl rfl (by norm_num) (by norm_num)
      (by norm_num) rfl (by norm_num) (by push_cast; norm_num)
      (by
        rw [show (5 : ℚ)/3 - 5/3 = 0 by norm_num, abs_zero,
          show ((2 : ℚ) - 1) / ((1000 : ℚ) - 1) = 1/999 by norm_num,
          abs_of_pos (by norm_num : (0 : ℚ) < 1/999)]
        norm_num)
  have hax2 : solveAxis (4/5) false dfC9x "cycle_index" = .ok (2/3) := by
    exact solveAxis_two_point (4/5) false rowC9a rowC9b "cycle_index"
      0 1 1 (7/10) 1 (2/3) (2/3) 666 rfl rfl rfl rfl (by norm_num) (by norm_num)
      (by norm_num) rfl (by norm_num) (by push_cast; norm_num)
      (by
        rw [show (2 : ℚ)/3 - 2/3 = 0 by norm_num, abs_zero,
          show ((1 : ℚ) - 0) / ((1000 : ℚ) - 1) = 1/999 by norm_num,
          abs_of_pos (by norm_num : (0 : ℚ) < 1/999)]
        norm_num)
  have hax3 : solveAxis (4/5) false dfC9x "shifted_throughput" = .ok (-(4/3)) := by
    exact solveAxis_two_point (4/5) false rowC9a rowC9b "shifted_throughput"
      (-2) (-1) 1 (7/10) (-1) (-(4/3)) (-(4/3)) 666 rfl rfl rfl rfl (by norm_num)
      (by norm_num) (by norm_num) rfl (by norm_num) (by push_cast; norm_num)
      (by
        rw [show -((4 : ℚ)/3) - -(4/3) = 0 by norm_num, abs_zero,
          show ((-1 : ℚ) - -2) / ((1000 : ℚ) - 1) = 1/999 by norm_num,
          abs_of_pos (by norm_num : (0 : ℚ) < 1/999)]
        norm_num)
  have hnc : (decide ((4/5 : ℚ) <
      listMinD (List.map (fun r => r.fractional_metric) dfC9x) 0)) = false := by
    rw [show listMinD (List.map (fun r => r.fractional_metric) dfC9x) 0 = 7/10 by
      norm_num [dfC9x, rowC9a, rowC9b, listMinD, minQ]]
    norm_num
  rw [← hnc] at hax1 hax2 hax3
  have hmain := solveFiltered_three_axes "rpt_1C" "discharge_energy" "cycle_index"
    "shifted_throughput" (4/5) dfC9x (5/3) (2/3) (-(4/3)) hax1 hax2 hax3
    (by norm_num) (by norm_num)
  have hred : get_threshold_targets hpC9x dfC9x = solveFiltered "rpt_1C" "discharge_energy"
      ["normalized_regular_throughput", "cycle_index", "shifted_throughput"] (4/5)
      dfC9x := by
    simp only [get_threshold_targets]
    rw [show kinkFilter hpC9x.filter_kinks dfC9x = dfC9x from rfl]
    rw [show listMinD (List.map (fun r => r.fractional_metric) dfC9x) 0 = 7/10 by
      norm_num [dfC9x, rowC9a, rowC9b, listMinD, minQ]]
    have hno : ¬ (hpC9x.threshold < 7/10 ∧ hpC9x.extrapolate_threshold = false) := by
      intro h
      have := h.1
      norm_num [hpC9x] at this
    rw [if_neg hno]
    have hl2 : ¬ (dfC9x.length < 2) := by norm_num [dfC9x]
    rw [if_neg hl2]
    rfl
  refine ⟨?_, by norm_num⟩
  rw [hred, hmain]
  have hinit : initialThroughput dfC9x = 1 := rfl
  rw [hinit, mul_one]

theorem mapME_ok_length {α β : Type} (f : α → Except PyError β) :
    ∀ (l : List α) (bs : List β), mapME f l = .ok bs → bs.length = l.length := by
  intro l
  induction l with
  | nil =>
    intro bs h
    simp only [mapME, Except.ok.injEq] at h
    rw [← h]
    rfl
  | cons a rest ih =>
    intro bs h
    simp only [mapME] at h
    split at h
    · simp at h
    · split at h
      · simp at h
      · rename_i b hb bs' hbs'
        simp only [Except.ok.injEq] at h
        rw [← h]
        simp [ih bs' hbs']

/-- Claim C9, amended: in any successful result of get_threshold_targets,
the two values following the initial-throughput entry - the crossings of
the FIRST TWO interpolation axes, the only ones core.py line 888 inspects -
are positive.  Values of any further axes are unchecked (see the
counterexample), and with fewer than two axes the check itself raises. -/
theorem C9_first_two_axes_positive (hp : ThresholdHP) (df : List DiagRow)
    (out : List (String × ℚ)) (h : get_threshold_targets hp df = .ok out) :
    ∃ first n1 v1 n2 v2 rest,
      out = first :: (n1, v1) :: (n2, v2) :: rest ∧ 0 < v1 ∧ 0 < v2 := by
  unfold get_threshold_targets at h
  simp only [] at h
  split at h
  · simp at h
  · split at h
    · simp at h
    · unfold solveFiltered at h
      simp only [] at h
      split at h
      · simp at h
      · rename_i xs heq
        split at h
        · simp at h
        · split at h <;> simp at h
        · rename_i x0 x1 tail
          split at h
          · simp at h
          · rename_i hguard
            push_neg at hguard
            obtain ⟨hx0, hx1⟩ := hguard
            have hlen := mapME_ok_length _ _ _ heq
            obtain ⟨a1, axes', ha⟩ : ∃ a1 axes', hp.interpolation_axes = a1 :: axes' := by
              cases hax : hp.interpolation_axes with
              | nil => rw [hax] at hlen; simp at hlen
              | cons a1 axes' => exact ⟨a1, axes', rfl⟩
            obtain ⟨a2, arest, ha2⟩ : ∃ a2 arest, axes' = a2 :: arest := by
              cases hax2 : axes' with
              | nil =>
                rw [ha, hax2] at hlen
                simp at hlen
              | cons a2 arest => exact ⟨a2, arest, rfl⟩
            rw [ha, ha2] at h
            split at h <;>
            · simp only [Except.ok.injEq] at h
              rw [← h]
              simp only [List.cons_append, List.zip_cons_cons, List.map_cons]
              exact ⟨_, _, _, _, _, _, rfl, hx0, hx1⟩

/-- Witness for the amended claim C9 on the concrete linear-series run. -/
theorem C9_first_two_axes_positive_witness :
    ∃ first n1 v1 n2 v2 rest,
      [("initial_regular_throughput", (1 : ℚ)),
       (axisKey "rpt_1C" "discharge_energy" (4/5) "normalized_regular_throughput",
         (40000 : ℚ)/999),
       (axisKey "rpt_1C" "discharge_energy" (4/5) "cycle_index", (40000 : ℚ)/999),
       (axisKey "rpt_1C" "discharge_energy" (4/5) "real_regular_throughput",
         (40000 : ℚ)/999)] =
        first :: (n1, v1) :: (n2, v2) :: rest ∧ 0 < v1 ∧ 0 < v2 :=
  C9_first_two_axes_positive hpC3 dfC3 _ linear_series_run

theorem statValue_var (a : List ℚ) : statValue a "var" = np_log10 |(varQ a : ℝ)| := by
  unfold statValue
  rw [if_pos rfl]

theorem statValue_mean (a : List ℚ) : statValue a "mean" = np_log10 |(meanQ a : ℝ)| := by
  unfold statValue
  rw [if_neg (by decide), if_neg (by decide), if_pos rfl]

/-- Claim C2 (counterexample): requesting the statistics in the order
mean-then-var does NOT return the values in that order.  On the array
1..5 the code returns the variance entry first (the source appends values
in its own fixed order var, min, mean, skew, kurtosis, abs, square,
regardless of the requested order), and log10 of the variance 2 differs
from log10 of the mean 3. -/
theorem C2_requested_order_counterexample :
    get_summary_statistics ["mean", "var"] [1, 2, 3, 4, 5] ≠
      .ok [statValue [1, 2, 3, 4, 5] "mean", statValue [1, 2, 3, 4, 5] "var"] := by
  have hcode : get_summary_statistics ["mean", "var"] [1, 2, 3, 4, 5] =
      .ok [statValue [1, 2, 3, 4, 5] "var", statValue [1, 2, 3, 4, 5] "mean"] := by
    unfold get_summary_statistics
    rw [if_neg (by decide), if_pos (by decide), if_neg (by decide), if_pos (by decide),
      if_neg (by decide), if_neg (by decide), if_neg (by decide), if_neg (by decide)]
    rfl
  rw [hcode]
  intro hcon
  simp only [Except.ok.injEq, List.cons.injEq, and_true] at hcon
  obtain ⟨h1, -⟩ := hcon
  have hvar : varQ [1, 2, 3, 4, 5] = 2 := by
    norm_num [varQ, centralMoment, meanQ]
  have hmean : meanQ [1, 2, 3, 4, 5] = 3 := by
    norm_num [meanQ]
  rw [statValue_var, statValue_mean, hvar, hmean] at h1
  rw [show |((2 : ℚ) : ℝ)| = 2 by rw [abs_of_pos] <;> norm_num,
    show |((3 : ℚ) : ℝ)| = 3 by rw [abs_of_pos] <;> norm_num] at h1
  have hlt : np_log10 2 < np_log10 3 :=
    Real.logb_lt_logb (by norm_num) (by norm_num) (by norm_num)
  rw [h1] at hlt
  exact lt_irrefl _ hlt

theorem filter_cons_map {α β : Type} (p : α → Bool) (f : α → β) (a : α) (l : List α) :
    ((a :: l).filter p).map f = (if p a then [f a] else []) ++ (l.filter p).map f := by
  by_cases h : p a <;> simp [List.filter_cons, h]

/-- Claim C2 (amended): when every requested name is supported, the returned
values follow the source's fixed canonical order var, min, mean, skew,
kurtosis, abs, square restricted to the requested names, with exactly one
value per distinct requested name. -/
theorem C2_canonical_order (names : List String) (array : List ℚ)
    (hsup : ∀ s ∈ names, s ∈ supported_statistics) :
    get_summary_statistics names array =
      .ok ((supported_statistics.filter (fun s => names.contains s)).map
        (statValue array)) ∧
    (supported_statistics.filter (fun s => names.contains s)).length =
      names.dedup.length := by
  constructor
  · unfold get_summary_statistics
    rw [if_neg]
    · refine congrArg Except.ok ?_
      rw [show supported_statistics = "var" :: "min" :: "mean" :: "skew" ::
        "kurtosis" :: "abs" :: "square" :: ([] : List String) from rfl]
      rw [filter_cons_map, filter_cons_map, filter_cons_map, filter_cons_map,
        filter_cons_map, filter_cons_map, filter_cons_map]
      simp only [List.filter_nil, List.map_nil, List.append_nil, List.append_assoc]
    · rw [Bool.not_eq_true, List.any_eq_false]
      intro s hs
      simpa using hsup s hs
  · have hnd : supported_statistics.Nodup := by decide
    have h1 : (supported_statistics.filter (fun s => names.contains s)).toFinset =
        names.toFinset := by
      ext a
      simp only [List.toFinset_filter, Finset.mem_filter, List.mem_toFinset]
      constructor
      · rintro ⟨-, ha⟩
        exact List.elem_iff.mp ha
      · intro ha
        exact ⟨hsup a ha, List.elem_iff.mpr ha⟩
    calc (supported_statistics.filter (fun s => names.contains s)).length
        = (supported_statistics.filter (fun s => names.contains s)).toFinset.card :=
          (List.toFinset_card_of_nodup (hnd.filter _)).symm
      _ = names.toFinset.card := by rw [h1]
      _ = names.dedup.length := List.card_toFinset names

theorem C2_canonical_order_witness :
    (∀ s ∈ (["mean", "var"] : List String), s ∈ supported_statistics) ∧
    (get_summary_statistics ["mean", "var"] [1, 2, 3, 4, 5] =
      .ok ((supported_statistics.filter
        (fun s => (["mean", "var"] : List String).contains s)).map
        (statValue [1, 2, 3, 4, 5])) ∧
     (supported_statistics.filter
        (fun s => (["mean", "var"] : List String).contains s)).length =
      (["mean", "var"] : List String).dedup.length) :=
  ⟨by decide, C2_canonical_order ["mean", "var"] [1, 2, 3, 4, 5] (by decide)⟩

/-- A protocol whose first constant-current phase is at LOWER current than
its second (CC1 = 1 < 2 = CC2), with one regular cycle whose constant-voltage
onset falls at 10 percent of the cycle duration. -/
def dpC6 : ExDatapath :=
  { structured_summary := [{ index := 1, cycle_index := 1, charge_throughput := some 1 }],
    structured_data :=
      [{ cycle_index := 1, step_type := "charge", test_time := 0, voltage := 3 },
       { cycle_index := 1, step_type := "charge", test_time := 1, voltage := 21/5 },
       { cycle_index := 1, step_type := "charge", test_time := 2, voltage := 21/5 },
       { cycle_index := 1, step_type := "discharge", test_time := 10, voltage := 3 }],
    diag_fractional := [],
    nominal_capacity_param := none,
    protocol_CC1 := 1,
    protocol_CC2 := 2,
    protocol_capacity_nominal := 1 }

/-- Claim C6 (counterexample to the gating direction): on a protocol with
CC1 = 1 strictly below CC2 = 2 and a cycle whose CV onset fraction 0.1 is
below the 0.3 cutoff, the source (which skips the loop whenever CC1 is at
most CC2, core.py line 1040) returns True, while the spec's reading (loop
runs when CC1 is below CC2) would return False. -/
theorem C6_gating_direction_counterexample :
    dpC6.protocol_CC1 < dpC6.protocol_CC2 ∧
    is_not_early_CV_flag dpC6 (3/10) 5 = .ok true ∧
    is_not_early_CV_claim dpC6 (3/10) 5 = .ok false := by
  exact ⟨by decide, rfl, rfl⟩

theorem earlyCVLoop_false_iff (dp : ExDatapath) (cut : ℚ) (l : List ℚ) :
    earlyCVLoop dp cut l = .ok false ↔
      ∃ l1 c l2, l = l1 ++ c :: l2 ∧
        (∀ x ∈ l1, cycleNotEarlyCV dp cut x = .ok true) ∧
        cycleNotEarlyCV dp cut c = .ok false := by
  induction l with
  | nil =>
    constructor
    · intro h
      exact absurd h (by simp [earlyCVLoop])
    · rintro ⟨l1, c, l2, hl, -, -⟩
      rcases l1 with _ | ⟨b, l1'⟩ <;> simp at hl
  | cons a rest ih =>
    unfold earlyCVLoop
    cases h : cycleNotEarlyCV dp cut a with
    | error e =>
      simp only []
      constructor
      · intro hc
        exact absurd hc (by simp)
      · rintro ⟨l1, c, l2, hl, hall, hc⟩
        rcases l1 with _ | ⟨b, l1'⟩
        · rw [List.nil_append, List.cons.injEq] at hl
          rw [hl.1] at h
          rw [h] at hc
          exact absurd hc (by simp)
        · rw [List.cons_append, List.cons.injEq] at hl
          have hb := hall b (by simp)
          rw [hl.1] at h
          rw [h] at hb
          exact absurd hb (by simp)
    | ok bres =>
      cases bres with
      | true =>
        simp only []
        rw [ih]
        constructor
        · rintro ⟨l1, c, l2, hl, hall, hc⟩
          exact ⟨a :: l1, c, l2, by rw [hl, List.cons_append],
            by
              intro x hx
              rcases List.mem_cons.mp hx with hx | hx
              · rw [hx]; exact h
              · exact hall x hx,
            hc⟩
        · rintro ⟨l1, c, l2, hl, hall, hc⟩
          rcases l1 with _ | ⟨b, l1'⟩
          · rw [List.nil_append, List.cons.injEq] at hl
            rw [hl.1] at h
            rw [h] at hc
            exact absurd hc (by simp)
          · rw [List.cons_append, List.cons.injEq] at hl
            exact ⟨l1', c, l2, hl.2, fun x hx => hall x (by simp [hx]), hc⟩
      | false =>
        simp only []
        constructor
        · intro _
          exact ⟨[], a, rest, by simp, by simp, h⟩
        · intro _
          trivial

/-- Claim C6 (amended): the source skips the early-CV loop whenever CC1 is
at most CC2 (returning the trivially-true flag) and runs it exactly when CC1
exceeds CC2; when the loop runs, the flag is False precisely when some
regular cycle up to the EOL cutoff has its CV onset fraction below the
cutoff and every earlier such cycle does not — the first failing cycle
short-circuits the rule. -/
theorem C6_early_CV_gating (dp : ExDatapath) (cut : ℚ) (k : ℤ) :
    (dp.protocol_CC1 ≤ dp.protocol_CC2 →
      is_not_early_CV_flag dp cut k = .ok true) ∧
    (dp.protocol_CC2 < dp.protocol_CC1 →
      is_not_early_CV_flag dp cut k = earlyCVLoop dp cut (preEOLCycles dp k)) ∧
    (earlyCVLoop dp cut (preEOLCycles dp k) = .ok false ↔
      ∃ l1 c l2, preEOLCycles dp k = l1 ++ c :: l2 ∧
        (∀ x ∈ l1, cycleNotEarlyCV dp cut x = .ok true) ∧
        cycleNotEarlyCV dp cut c = .ok false) := by
  refine ⟨?_, ?_, earlyCVLoop_false_iff dp cut (preEOLCycles dp k)⟩
  · intro h
    unfold is_not_early_CV_flag
    rw [if_pos h]
  · intro h
    unfold is_not_early_CV_flag
    rw [if_neg (not_le.mpr h)]

theorem C6_early_CV_gating_witness :
    (dpC6.protocol_CC1 ≤ dpC6.protocol_CC2 →
      is_not_early_CV_flag dpC6 (3/10) 5 = .ok true) ∧
    (dpC6.protocol_CC2 < dpC6.protocol_CC1 →
      is_not_early_CV_flag dpC6 (3/10) 5 = earlyCVLoop dpC6 (3/10) (preEOLCycles dpC6 5)) ∧
    (earlyCVLoop dpC6 (3/10) (preEOLCycles dpC6 5) = .ok false ↔
      ∃ l1 c l2, preEOLCycles dpC6 5 = l1 ++ c :: l2 ∧
        (∀ x ∈ l1, cycleNotEarlyCV dpC6 (3/10) x = .ok true) ∧
        cycleNotEarlyCV dpC6 (3/10) c = .ok false) :=
  C6_early_CV_gating dpC6 (3/10) 5

theorem alignSeries_length (m : ℕ) (s : List PdVal) : (alignSeries m s).length = m := by
  unfold alignSeries
  rw [List.length_append, List.length_take, List.length_replicate]
  omega

/-- The seven rule columns of the ExclusionCriteria table, in assignment
order (core.py lines 969-1068). -/
def exclusionPartialFrame (c1 c2 c3 c4 c5 c6 c7 : List PdVal) : PdFrame :=
  [("first_n_cycles_throughput", c1),
   ("is_above_first_n_cycles_throughput", c2),
   ("fractional_capacity_at_EOT", c3),
   ("is_below_fractional_capacity_at_EOT", c4),
   ("equivalent_full_cycles_at_EOL", c5),
   ("is_above_equivalent_full_cycles_at_EOL", c6),
   ("is_not_early_CV", c7)]

/-- The full ExclusionCriteria table: the rule columns plus the to_include
aggregate (core.py lines 1071-1072). -/
def exclusionFullFrame (c1 c2 c3 c4 c5 c6 c7 : List PdVal) : PdFrame :=
  exclusionPartialFrame c1 c2 c3 c4 c5 c6 c7 ++
    [("to_include", toIncludeColumn (exclusionPartialFrame c1 c2 c3 c4 c5 c6 c7))]

theorem exclusion_ok_shape (hp : ExclusionHP) (dp : ExDatapath) (f : PdFrame)
    (h : exclusion_create_features hp dp = .ok f) :
    ∃ c1 c2 c3 c4 c5 c6 c7 : List PdVal,
      c1.length = c2.length ∧ c3.length = c2.length ∧ c4.length = c2.length ∧
      c5.length = c2.length ∧ c6.length = c2.length ∧ c7.length = c2.length ∧
      f = exclusionFullFrame c1 c2 c3 c4 c5 c6 c7 := by
  simp only [exclusion_create_features] at h
  split at h
  · simp at h
  · split at h
    · simp at h
    · split at h
      · simp at h
      · split at h
        · simp at h
        · simp only [Except.ok.injEq] at h
          refine ⟨_, _, _, _, _, _, _, ?_, ?_, ?_, ?_, ?_, ?_, h.symm⟩
          · rw [List.length_map, alignSeries_length]
          · rw [alignSeries_length, alignSeries_length]
          · rw [alignSeries_length, alignSeries_length]
          · rw [alignSeries_length, alignSeries_length]
          · rw [alignSeries_length, alignSeries_length]
          · rw [List.length_replicate, alignSeries_length]

theorem to_include_row (c1 c2 c3 c4 c5 c6 c7 : List PdVal)
    (h2 : c2.length = c1.length) (h4 : c4.length = c1.length)
    (h6 : c6.length = c1.length) (h7 : c7.length = c1.length) (i : ℕ) :
    valTruthyAt (exclusionFullFrame c1 c2 c3 c4 c5 c6 c7) "to_include" i =
      (valTruthyAt (exclusionFullFrame c1 c2 c3 c4 c5 c6 c7)
        "is_above_first_n_cycles_throughput" i &&
       valTruthyAt (exclusionFullFrame c1 c2 c3 c4 c5 c6 c7)
        "is_below_fractional_capacity_at_EOT" i &&
       valTruthyAt (exclusionFullFrame c1 c2 c3 c4 c5 c6 c7)
        "is_above_equivalent_full_cycles_at_EOL" i &&
       valTruthyAt (exclusionFullFrame c1 c2 c3 c4 c5 c6 c7) "is_not_early_CV" i) := by
  have hgt : frameGet (exclusionFullFrame c1 c2 c3 c4 c5 c6 c7) "to_include" =
      some (toIncludeColumn (exclusionPartialFrame c1 c2 c3 c4 c5 c6 c7)) := rfl
  have hg2 : frameGet (exclusionFullFrame c1 c2 c3 c4 c5 c6 c7)
      "is_above_first_n_cycles_throughput" = some c2 := rfl
  have hg4 : frameGet (exclusionFullFrame c1 c2 c3 c4 c5 c6 c7)
      "is_below_fractional_capacity_at_EOT" = some c4 := rfl
  have hg6 : frameGet (exclusionFullFrame c1 c2 c3 c4 c5 c6 c7)
      "is_above_equivalent_full_cycles_at_EOL" = some c6 := rfl
  have hg7 : frameGet (exclusionFullFrame c1 c2 c3 c4 c5 c6 c7)
      "is_not_early_CV" = some c7 := rfl
  have hfilter : (exclusionPartialFrame c1 c2 c3 c4 c5 c6 c7).filter
      (fun c => c.1.take 3 = "is_") =
      [("is_above_first_n_cycles_throughput", c2),
       ("is_below_fractional_capacity_at_EOT", c4),
       ("is_above_equivalent_full_cycles_at_EOL", c6),
       ("is_not_early_CV", c7)] := by
    simp +decide [exclusionPartialFrame, List.filter_cons]
  have hcol : toIncludeColumn (exclusionPartialFrame c1 c2 c3 c4 c5 c6 c7) =
      (List.range c1.length).map (fun j => PdVal.b
        ([("is_above_first_n_cycles_throughput", c2),
          ("is_below_fractional_capacity_at_EOT", c4),
          ("is_above_equivalent_full_cycles_at_EOL", c6),
          ("is_not_early_CV", c7)].all
          (fun c => (((c.2).get? j).getD PdVal.nan).truthy))) := by
    simp only [toIncludeColumn]
    rw [hfilter]
    simp only [exclusionPartialFrame, frameRowLen]
  simp only [valTruthyAt, hgt, hg2, hg4, hg6, hg7, Option.some_bind]
  rw [hcol]
  by_cases hi : i < c1.length
  · rw [List.get?_map, List.get?_range hi]
    simp only [Option.map_some', Option.getD_some, PdVal.truthy, List.all_cons,
      List.all_nil, Bool.and_true, Bool.and_assoc]
  · have hle : c1.length ≤ i := le_of_not_lt hi
    rw [List.get?_eq_none.mpr (by rw [List.length_map, List.length_range]; exact hle),
      List.get?_eq_none.mpr (by omega), List.get?_eq_none.mpr (by omega),
      List.get?_eq_none.mpr (by omega), List.get?_eq_none.mpr (by omega)]
    rfl

/-- Claim C7: in every successful ExclusionCriteria run, the to_include
column is, row by row, the logical AND (Python all) of the four rule-outcome
columns, the columns whose names start with is_: it is true at a row exactly
when all four flags are truthy there, so making any single flag false makes
to_include false. -/
theorem C7_to_include_and (hp : ExclusionHP) (dp : ExDatapath) (f : PdFrame)
    (h : exclusion_create_features hp dp = .ok f) (i : ℕ) :
    valTruthyAt f "to_include" i =
      (valTruthyAt f "is_above_first_n_cycles_throughput" i &&
       valTruthyAt f "is_below_fractional_capacity_at_EOT" i &&
       valTruthyAt f "is_above_equivalent_full_cycles_at_EOL" i &&
       valTruthyAt f "is_not_early_CV" i) := by
  obtain ⟨c1, c2, c3, c4, c5, c6, c7, h2, h3, h4, h5, h6, h7, rfl⟩ :=
    exclusion_ok_shape hp dp f h
  exact to_include_row c1 c2 c3 c4 c5 c6 c7 (by omega) (by omega) (by omega)
    (by omega) i

/-- Hyperparameters for a fully successful ExclusionCriteria run. -/
def hpC7w : ExclusionHP :=
  { EOL_threshold := 4/5, throughput_n := 1, throughput_cutoff := 1/2,
    equivalent_full_cycles_cutoff := 1, early_CV_cutoff := 1/10 }

/-- A datapath on which every ExclusionCriteria rule evaluates cleanly. -/
def dpC7w : ExDatapath :=
  { structured_summary := [{ index := 1, cycle_index := 1, charge_throughput := some 2 }],
    structured_data := [],
    diag_fractional :=
      [{ cycle_index := 1, fractional_metric := some (9/10) },
       { cycle_index := 5, fractional_metric := some (7/10) }],
    nominal_capacity_param := some 1,
    protocol_CC1 := 1,
    protocol_CC2 := 2,
    protocol_capacity_nominal := 1 }

theorem C7_to_include_and_witness :
    valTruthyAt (exclusionFullFrame [PdVal.q 2] [PdVal.b true] [PdVal.q (7/10)]
        [PdVal.b true] [PdVal.q 2] [PdVal.b true] [PdVal.b true]) "to_include" 0 =
      (valTruthyAt (exclusionFullFrame [PdVal.q 2] [PdVal.b true] [PdVal.q (7/10)]
        [PdVal.b true] [PdVal.q 2] [PdVal.b true] [PdVal.b true])
        "is_above_first_n_cycles_throughput" 0 &&
       valTruthyAt (exclusionFullFrame [PdVal.q 2] [PdVal.b true] [PdVal.q (7/10)]
        [PdVal.b true] [PdVal.q 2] [PdVal.b true] [PdVal.b true])
        "is_below_fractional_capacity_at_EOT" 0 &&
       valTruthyAt (exclusionFullFrame [PdVal.q 2] [PdVal.b true] [PdVal.q (7/10)]
        [PdVal.b true] [PdVal.q 2] [PdVal.b true] [PdVal.b true])
        "is_above_equivalent_full_cycles_at_EOL" 0 &&
       valTruthyAt (exclusionFullFrame [PdVal.q 2] [PdVal.b true] [PdVal.q (7/10)]
        [PdVal.b true] [PdVal.q 2] [PdVal.b true] [PdVal.b true])
        "is_not_early_CV" 0) :=
  C7_to_include_and hpC7w dpC7w _ rfl 0

theorem alignSeries_pos_of_head? {m : ℕ} {s : List PdVal} {v : PdVal}
    (h : (alignSeries m s).head? = some v) : 1 ≤ m := by
  rcases Nat.eq_zero_or_pos m with hm | hm
  · subst hm
    rw [show alignSeries 0 s = [] by simp [alignSeries]] at h
    simp at h
  · exact hm

theorem alignSeries_get?_zero {m : ℕ} {s : List PdVal} {v : PdVal}
    (hm : 1 ≤ m) (hs : s.get? 0 = some v) : (alignSeries m s).get? 0 = some v := by
  unfold alignSeries
  have hsne : s ≠ [] := by
    intro hh
    rw [hh] at hs
    simp at hs
  have h0 : 0 < (s.take m).length := by
    rw [List.length_take]
    have := List.length_pos.mpr hsne
    omega
  rw [List.get?_append h0, List.get?_take (by omega : (0:ℕ) < m)]
  exact hs

theorem eot_head (ff : List (Option ℚ)) (last : Option ℚ)
    (hlast : ff.getLast? = some last) :
    (if optGtB last 1 then ff.drop (ff.length - 2) else ff.drop (ff.length - 1)).get? 0 =
      some (if optGtB last 1 then ff.getD (ff.length - 2) none else last) := by
  have hne : ff ≠ [] := by
    intro hh
    rw [hh] at hlast
    simp at hlast
  have hpos : 0 < ff.length := List.length_pos.mpr hne
  by_cases hg : optGtB last 1 = true
  · rw [if_pos hg, if_pos hg, List.get?_drop, Nat.add_zero]
    have hlt : ff.length - 2 < ff.length := by omega
    rw [List.get?_eq_getElem?, List.getElem?_eq_getElem hlt,
      List.getD_eq_getElem?_getD, List.getElem?_eq_getElem hlt]
    rfl
  · rw [if_neg hg, if_neg hg, List.get?_drop, Nat.add_zero]
    rw [List.getLast?_eq_get?] at hlast
    exact hlast

theorem frameGet_eot_col (c1 c2 c3 c4 c5 c6 c7 t : List PdVal) :
    frameGet ([("first_n_cycles_throughput", c1),
      ("is_above_first_n_cycles_throughput", c2),
      ("fractional_capacity_at_EOT", c3),
      ("is_below_fractional_capacity_at_EOT", c4),
      ("equivalent_full_cycles_at_EOL", c5),
      ("is_above_equivalent_full_cycles_at_EOL", c6),
      ("is_not_early_CV", c7)] ++ [("to_include", t)])
      "fractional_capacity_at_EOT" = some c3 := rfl

theorem frameGet_eot_flag (c1 c2 c3 c4 c5 c6 c7 t : List PdVal) :
    frameGet ([("first_n_cycles_throughput", c1),
      ("is_above_first_n_cycles_throughput", c2),
      ("fractional_capacity_at_EOT", c3),
      ("is_below_fractional_capacity_at_EOT", c4),
      ("equivalent_full_cycles_at_EOL", c5),
      ("is_above_equivalent_full_cycles_at_EOL", c6),
      ("is_not_early_CV", c7)] ++ [("to_include", t)])
      "is_below_fractional_capacity_at_EOT" = some c4 := rfl

/-- Claim C8: in every successful ExclusionCriteria run, the EOL rule
compares against the threshold exactly one observed fractional value: the
last forward-filled value of the series, or the second-to-last when the
last exceeds 1; row 0 of the fractional_capacity_at_EOT column is that
value and row 0 of the flag column is true exactly when it falls below the
threshold. -/
theorem C8_EOL_rule (hp : ExclusionHP) (dp : ExDatapath) (f : PdFrame)
    (h : exclusion_create_features hp dp = .ok f) :
    ∃ last : Option ℚ,
      (ffill (dp.diag_fractional.map (fun r => r.fractional_metric))).getLast? =
        some last ∧
      (frameGet f "fractional_capacity_at_EOT").bind (fun col => col.get? 0) =
        some (optVal (if optGtB last 1 then
          (ffill (dp.diag_fractional.map (fun r => r.fractional_metric))).getD
            ((ffill (dp.diag_fractional.map (fun r => r.fractional_metric))).length - 2)
            none
          else last)) ∧
      (frameGet f "is_below_fractional_capacity_at_EOT").bind (fun col => col.get? 0) =
        some (PdVal.b (optLtB (if optGtB last 1 then
          (ffill (dp.diag_fractional.map (fun r => r.fractional_metric))).getD
            ((ffill (dp.diag_fractional.map (fun r => r.fractional_metric))).length - 2)
            none
          else last) hp.EOL_threshold)) := by
  simp only [exclusion_create_features] at h
  split at h
  · simp at h
  · rename_i last hlast
    split at h
    · simp at h
    · rename_i flagVal hhead
      have hm := alignSeries_pos_of_head? hhead
      split at h
      · simp at h
      · rename_i cq hcq
        split at h
        · simp at h
        · rename_i cvFlag hflag
          rw [Except.ok.injEq] at h
          subst h
          refine ⟨last, hlast, ?_, ?_⟩
          · rw [frameGet_eot_col, Option.some_bind]
            refine alignSeries_get?_zero hm ?_
            rw [List.get?_map, eot_head _ _ hlast]
            rfl
          · rw [frameGet_eot_flag, Option.some_bind]
            refine alignSeries_get?_zero hm ?_
            rw [List.get?_map, List.get?_map, eot_head _ _ hlast]
            rfl

/-- A datapath engaging the EOL data-quality guard: the last forward-filled
fractional value 1.2 exceeds 1, so the rule reads the second-to-last value
0.7 instead. -/
def dpC8w : ExDatapath :=
  { structured_summary := [{ index := 1, cycle_index := 1, charge_throughput := some 2 }],
    structured_data := [],
    diag_fractional :=
      [{ cycle_index := 1, fractional_metric := some (9/10) },
       { cycle_index := 5, fractional_metric := some (7/10) },
       { cycle_index := 9, fractional_metric := some (6/5) }],
    nominal_capacity_param := some 1,
    protocol_CC1 := 1,
    protocol_CC2 := 2,
    protocol_capacity_nominal := 1 }

theorem C8_EOL_rule_witness :
    ∃ last : Option ℚ,
      (ffill (dpC8w.diag_fractional.map (fun r => r.fractional_metric))).getLast? =
        some last ∧
      (frameGet (exclusionFullFrame [PdVal.q 2] [PdVal.b true] [PdVal.q (7/10)]
          [PdVal.b true] [PdVal.q 2] [PdVal.b true] [PdVal.b true])
        "fractional_capacity_at_EOT").bind (fun col => col.get? 0) =
        some (optVal (if optGtB last 1 then
          (ffill (dpC8w.diag_fractional.map (fun r => r.fractional_metric))).getD
            ((ffill (dpC8w.diag_fractional.map (fun r => r.fractional_metric))).length - 2)
            none
          else last)) ∧
      (frameGet (exclusionFullFrame [PdVal.q 2] [PdVal.b true] [PdVal.q (7/10)]
          [PdVal.b true] [PdVal.q 2] [PdVal.b true] [PdVal.b true])
        "is_below_fractional_capacity_at_EOT").bind (fun col => col.get? 0) =
        some (PdVal.b (optLtB (if optGtB last 1 then
          (ffill (dpC8w.diag_fractional.map (fun r => r.fractional_metric))).getD
            ((ffill (dpC8w.diag_fractional.map (fun r => r.fractional_metric))).length - 2)
            none
          else last) hpC7w.EOL_threshold)) :=
  C8_EOL_rule hpC7w dpC8w (exclusionFullFrame [PdVal.q 2] [PdVal.b true]
    [PdVal.q (7/10)] [PdVal.b true] [PdVal.q 2] [PdVal.b true] [PdVal.b true]) rfl

theorem toIncludeColumn_length (f : PdFrame) :
    (toIncludeColumn f).length = frameRowLen f := by
  simp [toIncludeColumn]

/-- Claim C10: when the run's summary has at most one row at the configured
first-n-cycles index (as structured data has), every successful
ExclusionCriteria table has exactly one row in every column — also when the
EOL data-quality guard selects a two-element series, which pandas index
alignment truncates back to the single row. -/
theorem C10_single_row (hp : ExclusionHP) (dp : ExDatapath) (f : PdFrame)
    (hone : (dp.structured_summary.filter
      (fun r => r.index = hp.throughput_n)).length ≤ 1)
    (h : exclusion_create_features hp dp = .ok f) :
    ∀ c ∈ f, c.2.length = 1 := by
  simp only [exclusion_create_features] at h
  split at h
  · simp at h
  · rename_i last hlast
    split at h
    · simp at h
    · rename_i flagVal hhead
      have hm := alignSeries_pos_of_head? hhead
      rw [List.length_map] at hm
      have hM1 : (dp.structured_summary.filter
          (fun r => r.index = hp.throughput_n)).length = 1 := by omega
      split at h
      · simp at h
      · rename_i cq hcq
        split at h
        · simp at h
        · rename_i cvFlag hflag
          rw [Except.ok.injEq] at h
          subst h
          intro c hc
          simp only [List.mem_append, List.mem_cons, List.not_mem_nil, or_false] at hc
          rcases hc with (hc|hc|hc|hc|hc|hc|hc)|hc <;> rw [hc]
          · rw [List.length_map, List.length_map]
            exact hM1
          · rw [alignSeries_length, List.length_map]
            exact hM1
          · rw [alignSeries_length, List.length_map]
            exact hM1
          · rw [alignSeries_length, List.length_map]
            exact hM1
          · rw [alignSeries_length, List.length_map]
            exact hM1
          · rw [alignSeries_length, List.length_map]
            exact hM1
          · rw [List.length_replicate, List.length_map]
            exact hM1
          · rw [toIncludeColumn_length]
            simp only [frameRowLen]
            rw [List.length_map, List.length_map]
            exact hM1

theorem C10_single_row_witness :
    (dpC8w.structured_summary.filter
      (fun r => r.index = hpC7w.throughput_n)).length ≤ 1 ∧
    ∀ c ∈ exclusionFullFrame [PdVal.q 2] [PdVal.b true] [PdVal.q (7/10)]
      [PdVal.b true] [PdVal.q 2] [PdVal.b true] [PdVal.b true], c.2.length = 1 :=
  ⟨by decide, C10_single_row hpC7w dpC8w (exclusionFullFrame [PdVal.q 2] [PdVal.b true]
    [PdVal.q (7/10)] [PdVal.b true] [PdVal.q 2] [PdVal.b true] [PdVal.b true])
    (by decide) rfl⟩
